import Mathlib

/-!
# cpu-turbo-optimizer: the hysteresis loop and the settings applier

A shallow embedding of `src/cpu.go`:

* `runMonitorTick` is one iteration of the `for` loop of `runMonitor`
  (lines 109-158), `runMonitor` folds it over a finite prefix of the
  utilization samples, `runMonitorTrace` records every iteration;
* `applySettings` (lines 161-179) and the restore loop of
  `setupSignalHandler` (lines 405-410) run against an arbitrary policy sink
  and return the sequence of sink operations they perform;
* `getCPUUsage` (lines 180-238) and `getCPUCount` (lines 294-306) take the
  outcome of their file-system reads as arguments.

Printing, sleeping and the status line are not modelled: they change no
variable the decisions depend on.
-/

namespace CpuTurbo

/-! ## float64 comparison -/

/-- Go `float64` values as far as `<` and `>=` can tell them apart: NaN, the
two infinities, and the finite values (every finite float64 is a rational). -/
inductive F64 where
  | nan : F64
  | negInf : F64
  | fin (q : ℚ) : F64
  | posInf : F64
deriving DecidableEq

namespace F64

/-- Go `a < b` on float64: false as soon as one side is NaN. -/
def lt : F64 → F64 → Bool
  | negInf, fin _ => true
  | negInf, posInf => true
  | fin a, fin b => decide (a < b)
  | fin _, posInf => true
  | _, _ => false

/-- Go `a >= b` on float64: false as soon as one side is NaN. -/
def ge : F64 → F64 → Bool
  | posInf, posInf => true
  | posInf, fin _ => true
  | posInf, negInf => true
  | fin a, fin b => decide (b ≤ a)
  | fin _, negInf => true
  | negInf, negInf => true
  | _, _ => false

/-- Is the value a NaN. -/
def isNaN : F64 → Bool
  | nan => true
  | _ => false

end F64

/-! ## Machine integers -/

/-- The value a Go `int` (64 bits, twos complement) holds after an
arithmetic result `x` wraps around. -/
def wrapInt64 (x : Int) : Int := (x + 2 ^ 63) % 2 ^ 64 - 2 ^ 63

/-- Go `a - b` on `uint64` values: the difference modulo 2^64. -/
def subUint64 (a b : Nat) : Nat := (a + 2 ^ 64 - b % 2 ^ 64) % 2 ^ 64

/-- Go `a + b` on `uint64` values: the sum modulo 2^64. -/
def addUint64 (a b : Nat) : Nat := (a + b) % 2 ^ 64

/-! ## The control loop (`runMonitor`) -/

/-- The `Config` struct (lines 24-34). Frequencies are in MHz. -/
structure Config where
  CPUType : String
  MinNormal : Int
  MaxNormal : Int
  MinTurbo : Int
  MaxTurbo : Int
  SaveGovernor : String
  TurboGovernor : String
  UsageThreshold : F64
  Verbose : Bool

/-- One call `applySettings(governor, minFreq, maxFreq)` made by the loop. -/
structure ApplyCall where
  governor : String
  minFreq : Int
  maxFreq : Int
deriving DecidableEq

/-- The local variables of `runMonitor` that survive an iteration
(lines 94-99). The two counters are Go `int`s that start at 0 and grow by one
per tick, a tick lasting more than a second; 2^63 is out of their reach and
they are kept as unbounded integers. -/
structure MonitorState where
  currentMode : String
  forceApplySettings : Bool
  highUsageCounter : Int
  lowUsageCounter : Int
deriving DecidableEq

/-- The state `runMonitor` enters its loop with (lines 94-99). -/
def MonitorState.initial : MonitorState :=
  { currentMode := "", forceApplySettings := true, highUsageCounter := 0, lowUsageCounter := 0 }

/-- Line 100: `turboValidationThreshold := 3`. -/
def turboValidationThreshold : Int := 3

/-- Line 101: `normalValidationThreshold := 3`. -/
def normalValidationThreshold : Int := 3

/-- The call of line 138. -/
def normalCall (config : Config) : ApplyCall :=
  { governor := config.SaveGovernor
    minFreq := wrapInt64 (config.MinNormal * 1000)
    maxFreq := wrapInt64 (config.MaxNormal * 1000) }

/-- The call of line 143. -/
def turboCall (config : Config) : ApplyCall :=
  { governor := config.TurboGovernor
    minFreq := wrapInt64 (config.MinTurbo * 1000)
    maxFreq := wrapInt64 (config.MaxTurbo * 1000) }

/-- One iteration of the loop of `runMonitor` (lines 110-150) on the sample
`usage` returned by `getCPUUsage()`: the state after it and the
`applySettings` calls it made, in order. -/
def runMonitorTick (config : Config) (s : MonitorState) (usage : F64) :
    MonitorState × List ApplyCall :=
  let highUsageCounter : Int :=
    if usage.ge config.UsageThreshold then s.highUsageCounter + 1 else 0
  let lowUsageCounter : Int :=
    if usage.ge config.UsageThreshold then 0 else s.lowUsageCounter + 1
  let shouldSwitchToTurbo : Bool :=
    s.currentMode != "turbo" && decide (highUsageCounter ≥ turboValidationThreshold)
  let shouldSwitchToNormal : Bool :=
    s.currentMode != "normal" && decide (lowUsageCounter ≥ normalValidationThreshold)
  if shouldSwitchToTurbo || shouldSwitchToNormal || s.forceApplySettings then
    if shouldSwitchToNormal || (s.forceApplySettings && usage.lt config.UsageThreshold) then
      ({ currentMode := "normal", forceApplySettings := false,
         highUsageCounter := highUsageCounter, lowUsageCounter := lowUsageCounter },
       [normalCall config])
    else if shouldSwitchToTurbo || (s.forceApplySettings && usage.ge config.UsageThreshold) then
      ({ currentMode := "turbo", forceApplySettings := false,
         highUsageCounter := highUsageCounter, lowUsageCounter := lowUsageCounter },
       [turboCall config])
    else
      ({ currentMode := s.currentMode, forceApplySettings := false,
         highUsageCounter := highUsageCounter, lowUsageCounter := lowUsageCounter }, [])
  else
    ({ currentMode := s.currentMode, forceApplySettings := s.forceApplySettings,
       highUsageCounter := highUsageCounter, lowUsageCounter := lowUsageCounter }, [])

/-- The state after running the loop on the samples `usages`, oldest first. -/
def runMonitorFrom (config : Config) : MonitorState → List F64 → MonitorState
  | s, [] => s
  | s, usage :: rest => runMonitorFrom config (runMonitorTick config s usage).1 rest

/-- What one iteration did: the state before, the sample, the state after and
the `applySettings` calls made. -/
structure TickRecord where
  before : MonitorState
  usage : F64
  after : MonitorState
  calls : List ApplyCall

/-- The records of the successive iterations on `usages`, starting in `s`. -/
def runMonitorTraceFrom (config : Config) : MonitorState → List F64 → List TickRecord
  | _, [] => []
  | s, usage :: rest =>
    { before := s, usage := usage, after := (runMonitorTick config s usage).1,
      calls := (runMonitorTick config s usage).2 } ::
      runMonitorTraceFrom config (runMonitorTick config s usage).1 rest

/-- The loop of `runMonitor` from its initial state: the state after the
samples `usages`. -/
def runMonitor (config : Config) (usages : List F64) : MonitorState :=
  runMonitorFrom config MonitorState.initial usages

/-- The loop of `runMonitor` from its initial state: one record per tick. -/
def runMonitorTrace (config : Config) (usages : List F64) : List TickRecord :=
  runMonitorTraceFrom config MonitorState.initial usages

/-- The mode changed during the tick. -/
def TickRecord.modeChanged (r : TickRecord) : Prop :=
  r.after.currentMode ≠ r.before.currentMode

/-- The states the loop can be in at the top of an iteration. -/
inductive Reachable (config : Config) : MonitorState → Prop where
  | initial : Reachable config MonitorState.initial
  | tick (s : MonitorState) (usage : F64) :
      Reachable config s → Reachable config (runMonitorTick config s usage).1

/-- The default configuration of `main` (lines 42-50) with a given threshold. -/
def defaultConfig (threshold : F64) : Config :=
  { CPUType := "ryzen", MinNormal := 400, MaxNormal := 2000, MinTurbo := 400, MaxTurbo := 5450,
    SaveGovernor := "powersave", TurboGovernor := "performance",
    UsageThreshold := threshold, Verbose := false }

/-- What holds of the loop variables at the top of every iteration: the force
flag is set only while the mode is Uninitialized, and a streak of three
against a mode has already switched it. -/
def LoopInv (s : MonitorState) : Prop :=
  (s.forceApplySettings = true → s.currentMode = "") ∧
    (s.currentMode ≠ "turbo" → s.highUsageCounter ≤ 2) ∧
    (s.currentMode ≠ "normal" → s.lowUsageCounter ≤ 2)

/-- The mode is Turbo or Normal, the force flag is cleared, and the streak
against the mode needs more than `n` further ticks to reach three (`n` at
most 2, so that a streak restarting from 0 is covered too). -/
def Calm (s : MonitorState) (n : Int) : Prop :=
  s.forceApplySettings = false ∧ n ≤ 2 ∧
    ((s.currentMode = "turbo" ∧ s.lowUsageCounter + n ≤ 2) ∨
      (s.currentMode = "normal" ∧ s.highUsageCounter + n ≤ 2))

/-! ## The policy sink, `applySettings` and the restore handler -/

/-- One operation on the policy sink, the files `scaling_max_freq`,
`scaling_min_freq` and `scaling_governor` of a core. A read carries the value
the caller obtained. -/
inductive SinkOp where
  | WriteMax (cpu : Nat) (freq : Int)
  | WriteMin (cpu : Nat) (freq : Int)
  | WriteGovernor (cpu : Nat) (governor : String)
  | ReadMax (cpu : Nat) (freq : Int)
  | ReadMin (cpu : Nat) (freq : Int)
  | ReadGovernor (cpu : Nat) (governor : String)
deriving DecidableEq

/-- The three quantities the policy of a core holds. -/
inductive Quantity where
  | max
  | min
  | governor
deriving DecidableEq

/-- The quantity and core a read operation reads; `none` for a write. -/
def SinkOp.readTarget : SinkOp → Option (Quantity × Nat)
  | ReadMax cpu _ => some (Quantity.max, cpu)
  | ReadMin cpu _ => some (Quantity.min, cpu)
  | ReadGovernor cpu _ => some (Quantity.governor, cpu)
  | _ => none

/-- Is the operation a write. -/
def SinkOp.isWrite : SinkOp → Bool
  | WriteMax _ _ => true
  | WriteMin _ _ => true
  | WriteGovernor _ _ => true
  | _ => false

/-- A policy sink with states `σ`: what each of `setMaxFrequency`,
`setMinFrequency`, `setGovernor` (lines 355-368) does to it, and what
`getMaxFrequency`, `getMinFrequency` (lines 318-336) and the governor read of
`getCurrentSettings` return from it. A write that fails leaves the state as
it likes; a read that fails returns 0, as the source does. -/
structure Sink (σ : Type) where
  setMaxFrequency : Nat → Int → σ → σ
  setMinFrequency : Nat → Int → σ → σ
  setGovernor : Nat → String → σ → σ
  getMaxFrequency : Nat → σ → Int × σ
  getMinFrequency : Nat → σ → Int × σ
  getGovernor : Nat → σ → String × σ

/-- A `for` loop over the core indices `cores`: the body is run on each index
in turn, threading the sink state and concatenating the operations. -/
def forCores {σ : Type} (body : Nat → σ → σ × List SinkOp) : List Nat → σ → σ × List SinkOp
  | [], st => (st, [])
  | i :: rest, st =>
    ((forCores body rest (body i st).1).1, (body i st).2 ++ (forCores body rest (body i st).1).2)

/-- The body of the first loop of `applySettings` (lines 164-166). -/
def applyFirstPassBody {σ : Type} (sink : Sink σ) (governor : String) (minFreq maxFreq : Int)
    (i : Nat) (st : σ) : σ × List SinkOp :=
  (sink.setGovernor i governor (sink.setMinFrequency i minFreq (sink.setMaxFrequency i maxFreq st)),
   [SinkOp.WriteMax i maxFreq, SinkOp.WriteMin i minFreq, SinkOp.WriteGovernor i governor])

/-- The corrective writes of one iteration of the second loop of
`applySettings` (lines 172-177) after the readbacks `currMaxFreq` and
`currMinFreq`. -/
def correctiveOps (minFreq maxFreq : Int) (i : Nat) (currMaxFreq currMinFreq : Int) :
    List SinkOp :=
  (if currMaxFreq ≠ maxFreq then [SinkOp.WriteMax i maxFreq] else []) ++
    (if currMinFreq ≠ minFreq then [SinkOp.WriteMin i minFreq] else [])

/-- The body of the second loop of `applySettings` (lines 170-177). -/
def applyVerifyBody {σ : Type} (sink : Sink σ) (minFreq maxFreq : Int)
    (i : Nat) (st : σ) : σ × List SinkOp :=
  let rMax := sink.getMaxFrequency i st
  let rMin := sink.getMinFrequency i rMax.2
  let st1 := if rMax.1 ≠ maxFreq then sink.setMaxFrequency i maxFreq rMin.2 else rMin.2
  let st2 := if rMin.1 ≠ minFreq then sink.setMinFrequency i minFreq st1 else st1
  (st2, [SinkOp.ReadMax i rMax.1, SinkOp.ReadMin i rMin.1] ++
    correctiveOps minFreq maxFreq i rMax.1 rMin.1)

/-- The first loop of `applySettings` (lines 163-167) on `cpuCount` cores. -/
def applyFirstPass {σ : Type} (sink : Sink σ) (governor : String) (minFreq maxFreq : Int)
    (cpuCount : Nat) (st : σ) : σ × List SinkOp :=
  forCores (applyFirstPassBody sink governor minFreq maxFreq) (List.range cpuCount) st

/-- The second loop of `applySettings` (lines 169-178) on `cpuCount` cores. -/
def applyVerifyPass {σ : Type} (sink : Sink σ) (minFreq maxFreq : Int)
    (cpuCount : Nat) (st : σ) : σ × List SinkOp :=
  forCores (applyVerifyBody sink minFreq maxFreq) (List.range cpuCount) st

/-- The function `applySettings(governor, minFreq, maxFreq)` (lines 161-179)
with `cpuCount` the value `getCPUCount()` returned at line 162, run on the
sink state `st`: the final sink state and the operations performed. -/
def applySettings {σ : Type} (sink : Sink σ) (governor : String) (minFreq maxFreq : Int)
    (cpuCount : Nat) (st : σ) : σ × List SinkOp :=
  ((applyVerifyPass sink minFreq maxFreq cpuCount
      (applyFirstPass sink governor minFreq maxFreq cpuCount st).1).1,
   (applyFirstPass sink governor minFreq maxFreq cpuCount st).2 ++
     (applyVerifyPass sink minFreq maxFreq cpuCount
      (applyFirstPass sink governor minFreq maxFreq cpuCount st).1).2)

/-- The `CPUSettings` struct (lines 370-374). Frequencies are in kHz. -/
structure CPUSettings where
  MinFreq : Int
  MaxFreq : Int
  Governor : String
deriving DecidableEq

/-- The function `getCurrentSettings(cpu)` (lines 376-394): the three reads
in source order and the settings built from them. -/
def getCurrentSettings {σ : Type} (sink : Sink σ) (cpu : Nat) (st : σ) :
    CPUSettings × σ × List SinkOp :=
  let rMin := sink.getMinFrequency cpu st
  let rMax := sink.getMaxFrequency cpu rMin.2
  let rGov := sink.getGovernor cpu rMax.2
  ({ MinFreq := rMin.1, MaxFreq := rMax.1, Governor := rGov.1 }, rGov.2,
   [SinkOp.ReadMin cpu rMin.1, SinkOp.ReadMax cpu rMax.1, SinkOp.ReadGovernor cpu rGov.1])

/-- The body of the restore loop of the signal handler (lines 407-409). -/
def restoreBody {σ : Type} (sink : Sink σ) (original : CPUSettings)
    (i : Nat) (st : σ) : σ × List SinkOp :=
  (sink.setMaxFrequency i original.MaxFreq
     (sink.setMinFrequency i original.MinFreq (sink.setGovernor i original.Governor st)),
   [SinkOp.WriteGovernor i original.Governor, SinkOp.WriteMin i original.MinFreq,
    SinkOp.WriteMax i original.MaxFreq])

/-- What the goroutine of `setupSignalHandler(original)` does to the sink once
a signal arrives (lines 405-410), with `cpuCount` the value of
`getCPUCount()` at line 405. -/
def setupSignalHandler {σ : Type} (sink : Sink σ) (original : CPUSettings)
    (cpuCount : Nat) (st : σ) : σ × List SinkOp :=
  forCores (restoreBody sink original) (List.range cpuCount) st

/-- A sink that stores whatever is written and reads it back: the state maps
a core to its settings. -/
def storingSink : Sink (Nat → CPUSettings) where
  setMaxFrequency i v st := Function.update st i { st i with MaxFreq := v }
  setMinFrequency i v st := Function.update st i { st i with MinFreq := v }
  setGovernor i g st := Function.update st i { st i with Governor := g }
  getMaxFrequency i st := ((st i).MaxFreq, st)
  getMinFrequency i st := ((st i).MinFreq, st)
  getGovernor i st := ((st i).Governor, st)

/-- A sink that behaves like the cpufreq files of a kernel that refuses a
minimum above the current maximum and a maximum below the current minimum;
a refused write changes nothing. -/
def rangeCheckedSink : Sink (Nat → CPUSettings) where
  setMaxFrequency i v st :=
    if v < (st i).MinFreq then st else Function.update st i { st i with MaxFreq := v }
  setMinFrequency i v st :=
    if (st i).MaxFreq < v then st else Function.update st i { st i with MinFreq := v }
  setGovernor i g st := Function.update st i { st i with Governor := g }
  getMaxFrequency i st := ((st i).MaxFreq, st)
  getMinFrequency i st := ((st i).MinFreq, st)
  getGovernor i st := ((st i).Governor, st)

/-- A storing sink one of whose cores, `dead`, takes no write. -/
def deadCoreSink (dead : Nat) : Sink (Nat → CPUSettings) where
  setMaxFrequency i v st := if i = dead then st else Function.update st i { st i with MaxFreq := v }
  setMinFrequency i v st := if i = dead then st else Function.update st i { st i with MinFreq := v }
  setGovernor i g st := if i = dead then st else Function.update st i { st i with Governor := g }
  getMaxFrequency i st := ((st i).MaxFreq, st)
  getMinFrequency i st := ((st i).MinFreq, st)
  getGovernor i st := ((st i).Governor, st)

/-- A sink no write reaches and whose reads all fail: every readback is 0. -/
def deadSink : Sink Unit where
  setMaxFrequency _ _ st := st
  setMinFrequency _ _ st := st
  setGovernor _ _ st := st
  getMaxFrequency _ st := (0, st)
  getMinFrequency _ st := (0, st)
  getGovernor _ st := ("", st)

/-! ## `getCPUCount` -/

/-- Go `strings.HasPrefix(s, prefix)`, on the characters of the two strings. -/
def hasPrefix (s pre : String) : Bool := pre.data.isPrefixOf s.data

/-- Go `strings.Contains(s, substr)`, on the characters of the two strings. -/
def containsSubstr (s substr : String) : Bool :=
  s.data.tails.any (fun t => substr.data.isPrefixOf t)

/-- The test of line 301 on one directory entry name. -/
def isCPUEntry (name : String) : Bool :=
  hasPrefix name "cpu" && !containsSubstr name "cpuidle" && !containsSubstr name "cpufreq"

/-- The function `getCPUCount()` (lines 294-306) on the outcome of
`ioutil.ReadDir(cpuFreqBasePath)`: `none` when it failed, else the entry
names. -/
def getCPUCount (readDir : Option (List String)) : Nat :=
  match readDir with
  | none => 1
  | some files => files.foldl (fun count name => if isCPUEntry name then count + 1 else count) 0

/-! ## `getCPUUsage` -/

/-- Go `strconv.ParseUint(s, 10, 64)` with the error dropped: 0 on a syntax
error, 2^64 - 1 on a value out of range. -/
def parseUint (s : String) : Nat :=
  if s.data.isEmpty then 0
  else if s.data.all Char.isDigit then
    if s.data.foldl (fun acc ch => 10 * acc + (ch.toNat - 48)) 0 < 2 ^ 64 then
      s.data.foldl (fun acc ch => 10 * acc + (ch.toNat - 48)) 0
    else 2 ^ 64 - 1
  else 0

/-- The five counters `getCPUUsage` parses from the fields of the aggregate
`cpu` line (lines 198-202 and 216-220). -/
structure CPUTimes where
  user : Nat
  nice : Nat
  system : Nat
  idle : Nat
  iowait : Nat

/-- Fields 1 to 5 parsed as `uint64`. -/
def parseCPUTimes (fields : List String) : CPUTimes :=
  { user := parseUint (fields.getD 1 "")
    nice := parseUint (fields.getD 2 "")
    system := parseUint (fields.getD 3 "")
    idle := parseUint (fields.getD 4 "")
    iowait := parseUint (fields.getD 5 "") }

/-- The variable `active` of line 229. -/
def activeDelta (t1 t2 : CPUTimes) : Nat :=
  addUint64 (addUint64 (subUint64 t2.user t1.user) (subUint64 t2.nice t1.nice))
    (subUint64 t2.system t1.system)

/-- The variable `idle` of line 230. -/
def idleDelta (t1 t2 : CPUTimes) : Nat :=
  addUint64 (subUint64 t2.idle t1.idle) (subUint64 t2.iowait t1.iowait)

/-- The variable `total` of line 231. -/
def totalDelta (t1 t2 : CPUTimes) : Nat :=
  addUint64 (activeDelta t1 t2) (idleDelta t1 t2)

/-- The integer nearest to `x`, a tie going to the even one. -/
def roundTiesToEven (x : ℚ) : ℤ :=
  if x - ⌊x⌋ < 1 / 2 then ⌊x⌋
  else if 1 / 2 < x - ⌊x⌋ then ⌊x⌋ + 1
  else if ⌊x⌋ % 2 = 0 then ⌊x⌋ else ⌊x⌋ + 1

/-- The exponent of the unit in the last place of the float64 format at the
positive value `q`: 52 below the binary exponent of `q`, which is the floor
of its base-2 logarithm and at least -1022 (below that the format is
subnormal). -/
def ulpExponent (q : ℚ) : ℤ := max (Int.log 2 q) (-1022) - 52

/-- The float64 that an IEEE-754 operation returns when its exact result is
`q`: `q` rounded to the nearest multiple of its unit in the last place, ties
to even (the one rounding mode Go uses). Every finite float64 is a rational
and is given as such. An exact result of magnitude 2^1024 or more overflows
to an infinity and is outside this function; the values of `getCPUUsage` lie
between 100 / 2^64 and 100 * 2^64. -/
def roundFloat64 (q : ℚ) : ℚ :=
  if q = 0 then 0
  else if 0 < q then (roundTiesToEven (q / 2 ^ ulpExponent q) : ℚ) * 2 ^ ulpExponent q
  else -((roundTiesToEven (-q / 2 ^ ulpExponent (-q)) : ℚ) * 2 ^ ulpExponent (-q))

/-- Go `float64(n)` for a `uint64` value `n`. -/
def float64OfUint64 (n : Nat) : ℚ := roundFloat64 n

/-- Go `a * b` on float64 values. -/
def mulFloat64 (a b : ℚ) : ℚ := roundFloat64 (a * b)

/-- Go `a / b` on float64 values, for `b` other than 0. -/
def divFloat64 (a b : ℚ) : ℚ := roundFloat64 (a / b)

/-- Lines 223-237: the float64 computed from two parsed samples,
`100.0 * float64(active) / float64(total)` evaluated left to right with each
operation rounded, or 0 when `total` is 0. -/
def usageOfTimes (t1 t2 : CPUTimes) : ℚ :=
  if totalDelta t1 t2 = 0 then 0
  else divFloat64 (mulFloat64 100 (float64OfUint64 (activeDelta t1 t2)))
    (float64OfUint64 (totalDelta t1 t2))

/-- The function `getCPUUsage()` (lines 180-238) on the outcomes of its two
reads of `/proc/stat`: `none` for a failed read, else the whitespace-separated
fields of the first line. The result is the float64 returned, as the rational
it equals, and `none` when the function panics (an index out of range at
lines 216-220). -/
def getCPUUsage (read1 read2 : Option (List String)) : Option ℚ :=
  match read1 with
  | none => some 0
  | some fields1 =>
    if fields1.length < 8 then some 0
    else
      match read2 with
      | none => some 0
      | some fields2 =>
        if fields2.length < 6 then none
        else some (usageOfTimes (parseCPUTimes fields1) (parseCPUTimes fields2))

/-! ## Lemmas on the machine integers -/

/-- A value in the range of a 64-bit `int` is not changed by wrapping. -/
theorem wrapInt64_of_inRange (x : Int) (h1 : -2 ^ 63 ≤ x) (h2 : x < 2 ^ 63) :
    wrapInt64 x = x := by
  unfold wrapInt64
  norm_num at h1 h2 ⊢
  omega

/-! ## Lemmas on the float64 comparisons -/

theorem F64.lt_not_ge (a b : F64) (h : a.lt b = true) : a.ge b = false := by
  cases a <;> cases b <;> simp_all [F64.lt, F64.ge]

theorem F64.ge_or_lt (a b : F64) (ha : a.isNaN = false) (hb : b.isNaN = false) :
    a.ge b = true ∨ a.lt b = true := by
  cases a <;> cases b <;> simp_all [F64.lt, F64.ge, F64.isNaN]
  exact le_or_lt _ _

/-! ## Lemmas on one tick -/

theorem tick_high (c : Config) (s : MonitorState) (u : F64) :
    (runMonitorTick c s u).1.highUsageCounter =
      if u.ge c.UsageThreshold then s.highUsageCounter + 1 else 0 := by
  unfold runMonitorTick
  simp only []
  split_ifs <;> rfl

theorem tick_low (c : Config) (s : MonitorState) (u : F64) :
    (runMonitorTick c s u).1.lowUsageCounter =
      if u.ge c.UsageThreshold then 0 else s.lowUsageCounter + 1 := by
  unfold runMonitorTick
  simp only []
  split_ifs <;> rfl

theorem tick_force (c : Config) (s : MonitorState) (u : F64) :
    (runMonitorTick c s u).1.forceApplySettings = false := by
  unfold runMonitorTick
  simp only []
  split_ifs <;> simp_all

/-- A tick on a sample at or above the threshold, once the force flag is
cleared. -/
theorem tick_of_ge (c : Config) (s : MonitorState) (u : F64)
    (hf : s.forceApplySettings = false) (hg : u.ge c.UsageThreshold = true) :
    runMonitorTick c s u =
      if s.currentMode ≠ "turbo" ∧ 3 ≤ s.highUsageCounter + 1 then
        ({ currentMode := "turbo", forceApplySettings := false,
           highUsageCounter := s.highUsageCounter + 1, lowUsageCounter := 0 }, [turboCall c])
      else
        ({ currentMode := s.currentMode, forceApplySettings := false,
           highUsageCounter := s.highUsageCounter + 1, lowUsageCounter := 0 }, []) := by
  unfold runMonitorTick
  simp [hf, hg, turboValidationThreshold, normalValidationThreshold]
  split_ifs <;> simp_all

/-- A tick on a sample that is not at or above the threshold, once the force
flag is cleared. -/
theorem tick_of_not_ge (c : Config) (s : MonitorState) (u : F64)
    (hf : s.forceApplySettings = false) (hg : u.ge c.UsageThreshold = false) :
    runMonitorTick c s u =
      if s.currentMode ≠ "normal" ∧ 3 ≤ s.lowUsageCounter + 1 then
        ({ currentMode := "normal", forceApplySettings := false,
           highUsageCounter := 0, lowUsageCounter := s.lowUsageCounter + 1 }, [normalCall c])
      else
        ({ currentMode := s.currentMode, forceApplySettings := false,
           highUsageCounter := 0, lowUsageCounter := s.lowUsageCounter + 1 }, []) := by
  unfold runMonitorTick
  simp [hf, hg, turboValidationThreshold, normalValidationThreshold]
  split_ifs <;> simp_all

/-- The first tick: the force flag is set. -/
theorem tick_of_force (c : Config) (s : MonitorState) (u : F64)
    (hf : s.forceApplySettings = true) :
    runMonitorTick c s u =
      if (s.currentMode ≠ "normal" ∧ u.ge c.UsageThreshold = false ∧ 3 ≤ s.lowUsageCounter + 1) ∨
          u.lt c.UsageThreshold = true then
        ({ currentMode := "normal", forceApplySettings := false,
           highUsageCounter := if u.ge c.UsageThreshold then s.highUsageCounter + 1 else 0,
           lowUsageCounter := if u.ge c.UsageThreshold then 0 else s.lowUsageCounter + 1 },
         [normalCall c])
      else if u.ge c.UsageThreshold = true then
        ({ currentMode := "turbo", forceApplySettings := false,
           highUsageCounter := s.highUsageCounter + 1, lowUsageCounter := 0 }, [turboCall c])
      else
        ({ currentMode := s.currentMode, forceApplySettings := false,
           highUsageCounter := 0, lowUsageCounter := s.lowUsageCounter + 1 }, []) := by
  unfold runMonitorTick
  cases hg : u.ge c.UsageThreshold <;>
    simp [hf, hg, turboValidationThreshold, normalValidationThreshold]

theorem runMonitorFrom_append (c : Config) (s : MonitorState) (us : List F64) (u : F64) :
    runMonitorFrom c s (us ++ [u]) = (runMonitorTick c (runMonitorFrom c s us) u).1 := by
  induction us generalizing s with
  | nil => rfl
  | cons a rest ih => simp [runMonitorFrom, ih]

theorem runMonitorTraceFrom_length (c : Config) (s : MonitorState) (us : List F64) :
    (runMonitorTraceFrom c s us).length = us.length := by
  induction us generalizing s with
  | nil => rfl
  | cons a rest ih => simp [runMonitorTraceFrom, ih]

/-! ## C1: Normal to Turbo on the third high tick -/

/-- C1, as stated, fails at the initial state: it is reachable, its mode is
Uninitialized and its highUsageCounter is 0, the samples 70, 75, 80 are all at
or above the threshold 60, and yet the mode is already Turbo after the first
of them (the forced first-tick application). -/
theorem c1_counterexample_initial_state :
    Reachable (defaultConfig (F64.fin 60)) MonitorState.initial ∧
      MonitorState.initial.currentMode = "" ∧
      MonitorState.initial.highUsageCounter = 0 ∧
      (F64.fin 70).ge (defaultConfig (F64.fin 60)).UsageThreshold = true ∧
      (F64.fin 75).ge (defaultConfig (F64.fin 60)).UsageThreshold = true ∧
      (F64.fin 80).ge (defaultConfig (F64.fin 60)).UsageThreshold = true ∧
      (runMonitorFrom (defaultConfig (F64.fin 60)) MonitorState.initial
        [F64.fin 70]).currentMode = "turbo" :=
  ⟨Reachable.initial, by decide, by decide, by decide, by decide, by decide, by decide⟩

/-- C1 (amended): from every controller state whose mode is Normal or
Uninitialized, whose highUsageCounter is 0 and whose force flag is already
cleared, three samples at or above the threshold leave the mode not Turbo
after the first and after the second tick and make it Turbo after the third. -/
theorem c1_turbo_on_third_high_tick (config : Config) (s : MonitorState) (u1 u2 u3 : F64)
    (hmode : s.currentMode = "normal" ∨ s.currentMode = "")
    (hhigh : s.highUsageCounter = 0)
    (hforce : s.forceApplySettings = false)
    (h1 : u1.ge config.UsageThreshold = true)
    (h2 : u2.ge config.UsageThreshold = true)
    (h3 : u3.ge config.UsageThreshold = true) :
    (runMonitorFrom config s [u1]).currentMode ≠ "turbo" ∧
      (runMonitorFrom config s [u1, u2]).currentMode ≠ "turbo" ∧
      (runMonitorFrom config s [u1, u2, u3]).currentMode = "turbo" := by
  have hne : s.currentMode ≠ "turbo" := by
    rcases hmode with h | h <;> rw [h] <;> decide
  have e1 : runMonitorTick config s u1 =
      ({ currentMode := s.currentMode, forceApplySettings := false,
         highUsageCounter := 1, lowUsageCounter := 0 }, []) := by
    rw [tick_of_ge config s u1 hforce h1]; simp [hhigh]
  have e2 : runMonitorTick config
      { currentMode := s.currentMode, forceApplySettings := false,
        highUsageCounter := 1, lowUsageCounter := 0 } u2 =
      ({ currentMode := s.currentMode, forceApplySettings := false,
         highUsageCounter := 2, lowUsageCounter := 0 }, []) := by
    rw [tick_of_ge config _ u2 rfl h2]; simp
  have e3 : runMonitorTick config
      { currentMode := s.currentMode, forceApplySettings := false,
        highUsageCounter := 2, lowUsageCounter := 0 } u3 =
      ({ currentMode := "turbo", forceApplySettings := false,
         highUsageCounter := 3, lowUsageCounter := 0 }, [turboCall config]) := by
    rw [tick_of_ge config _ u3 rfl h3]; simp [hne]
  simp [runMonitorFrom, e1, e2, e3, hne]

/-- C1 (amended), at a concrete input: mode Normal, both counters 0, force
flag cleared, samples 70, 75, 80 against the threshold 60. -/
theorem c1_turbo_on_third_high_tick_witness :
    (runMonitorFrom (defaultConfig (F64.fin 60)) ⟨"normal", false, 0, 0⟩
        [F64.fin 70]).currentMode ≠ "turbo" ∧
      (runMonitorFrom (defaultConfig (F64.fin 60)) ⟨"normal", false, 0, 0⟩
        [F64.fin 70, F64.fin 75]).currentMode ≠ "turbo" ∧
      (runMonitorFrom (defaultConfig (F64.fin 60)) ⟨"normal", false, 0, 0⟩
        [F64.fin 70, F64.fin 75, F64.fin 80]).currentMode = "turbo" :=
  c1_turbo_on_third_high_tick (defaultConfig (F64.fin 60)) ⟨"normal", false, 0, 0⟩
    (F64.fin 70) (F64.fin 75) (F64.fin 80) (Or.inl rfl) rfl rfl
    (by decide) (by decide) (by decide)

/-! ## C2: Turbo to Normal on the third low tick -/

/-- Once in Normal with the force flag cleared and highUsageCounter 0, low
samples change neither the mode nor call the applier. -/
theorem normal_stays_on_low (config : Config) (s : MonitorState) (usages : List F64)
    (hmode : s.currentMode = "normal") (hforce : s.forceApplySettings = false)
    (hall : ∀ u ∈ usages, u.lt config.UsageThreshold = true) :
    ∀ (k : Nat) (r : TickRecord), (runMonitorTraceFrom config s usages)[k]? = some r →
      r.after.currentMode = "normal" ∧ r.calls = [] := by
  induction usages generalizing s with
  | nil => intro k r h; simp [runMonitorTraceFrom] at h
  | cons a rest ih =>
    have hlt : a.lt config.UsageThreshold = true := hall a (by simp)
    have hg : a.ge config.UsageThreshold = false := F64.lt_not_ge _ _ hlt
    have e : runMonitorTick config s a =
        ({ currentMode := "normal", forceApplySettings := false,
           highUsageCounter := 0, lowUsageCounter := s.lowUsageCounter + 1 }, []) := by
      rw [tick_of_not_ge config s a hforce hg]; simp [hmode]
    intro k r h
    cases k with
    | zero =>
      simp [runMonitorTraceFrom, e] at h
      subst h; simp
    | succ k =>
      simp only [runMonitorTraceFrom, e, List.getElem?_cons_succ] at h
      exact ih _ rfl rfl (fun u hu => hall u (by simp [hu])) k r h

/-- C2: from every controller state whose mode is Turbo, whose lowUsageCounter
is 0 and whose force flag is cleared, when all the following samples are below
the threshold there is one record per sample, and the tick of index k (from 0)
leaves the mode Turbo without a call for k < 2, switches to Normal with exactly
the one call carrying the Normal governor, MinNormal*1000 and MaxNormal*1000
for k = 2, and leaves the mode Normal without a call for k > 2. -/
theorem c2_normal_on_third_low_tick (config : Config) (s : MonitorState) (usages : List F64)
    (hmode : s.currentMode = "turbo")
    (hlow : s.lowUsageCounter = 0)
    (hforce : s.forceApplySettings = false)
    (hall : ∀ u ∈ usages, u.lt config.UsageThreshold = true) :
    (runMonitorTraceFrom config s usages).length = usages.length ∧
      ∀ (k : Nat) (r : TickRecord), (runMonitorTraceFrom config s usages)[k]? = some r →
        (k < 2 → r.after.currentMode = "turbo" ∧ r.calls = []) ∧
        (k = 2 → r.before.currentMode = "turbo" ∧ r.after.currentMode = "normal" ∧
          r.calls = [{ governor := config.SaveGovernor,
                       minFreq := wrapInt64 (config.MinNormal * 1000),
                       maxFreq := wrapInt64 (config.MaxNormal * 1000) }]) ∧
        (2 < k → r.after.currentMode = "normal" ∧ r.calls = []) := by
  refine ⟨runMonitorTraceFrom_length _ _ _, ?_⟩
  have step : ∀ (n : Int) (h : Int) (u : F64), u.lt config.UsageThreshold = true →
      runMonitorTick config ⟨"turbo", false, h, n⟩ u =
        if 3 ≤ n + 1 then (⟨"normal", false, 0, n + 1⟩, [normalCall config])
        else (⟨"turbo", false, 0, n + 1⟩, []) := by
    intro n h u hu
    rw [tick_of_not_ge config _ u rfl (F64.lt_not_ge _ _ hu)]
    simp
  obtain ⟨mode, force, high, low⟩ := s
  simp only at hmode hlow hforce
  subst hmode hlow hforce
  intro k r hk
  match usages, hall with
  | [], _ => simp [runMonitorTraceFrom] at hk
  | [a], hall =>
    have ha := step 0 high a (hall a (by simp))
    norm_num at ha
    cases k with
    | zero => simp [runMonitorTraceFrom, ha] at hk; subst hk; simp
    | succ k => simp [runMonitorTraceFrom] at hk
  | [a, b], hall =>
    have ha := step 0 high a (hall a (by simp))
    have hb := step 1 0 b (hall b (by simp))
    norm_num at ha hb
    match k with
    | 0 => simp [runMonitorTraceFrom, ha] at hk; subst hk; simp
    | 1 => simp [runMonitorTraceFrom, ha, hb] at hk; subst hk; simp
    | k + 2 => simp [runMonitorTraceFrom] at hk
  | a :: b :: c :: rest, hall =>
    have ha := step 0 high a (hall a (by simp))
    have hb := step 1 0 b (hall b (by simp))
    have hc := step 2 0 c (hall c (by simp))
    norm_num at ha hb hc
    match k with
    | 0 => simp [runMonitorTraceFrom, ha] at hk; subst hk; simp
    | 1 => simp [runMonitorTraceFrom, ha, hb] at hk; subst hk; simp
    | 2 => simp [runMonitorTraceFrom, ha, hb, hc] at hk; subst hk; simp [normalCall]
    | k + 3 =>
      simp only [runMonitorTraceFrom, ha, hb, hc, List.getElem?_cons_succ] at hk
      have := normal_stays_on_low config _ rest rfl rfl
        (fun u hu => hall u (by simp [hu])) k r hk
      simp [this]

/-- C2 at the scenario of the specification: readings 10, 10, 10, 10 against
the threshold 60, starting in Turbo with both counters 0. -/
theorem c2_normal_on_third_low_tick_witness :
    ((runMonitorTraceFrom (defaultConfig (F64.fin 60)) ⟨"turbo", false, 0, 0⟩
        [F64.fin 10, F64.fin 10, F64.fin 10, F64.fin 10]).length = 4 ∧
      ∀ (k : Nat) (r : TickRecord),
        (runMonitorTraceFrom (defaultConfig (F64.fin 60)) ⟨"turbo", false, 0, 0⟩
          [F64.fin 10, F64.fin 10, F64.fin 10, F64.fin 10])[k]? = some r →
        (k < 2 → r.after.currentMode = "turbo" ∧ r.calls = []) ∧
        (k = 2 → r.before.currentMode = "turbo" ∧ r.after.currentMode = "normal" ∧
          r.calls = [{ governor := "powersave",
                       minFreq := wrapInt64 (400 * 1000),
                       maxFreq := wrapInt64 (2000 * 1000) }]) ∧
        (2 < k → r.after.currentMode = "normal" ∧ r.calls = [])) ∧
      (runMonitorTraceFrom (defaultConfig (F64.fin 60)) ⟨"turbo", false, 0, 0⟩
        [F64.fin 10, F64.fin 10, F64.fin 10, F64.fin 10]).map
          (fun r => (r.after.currentMode, r.calls)) =
        [("turbo", []), ("turbo", []), ("normal", [⟨"powersave", 400000, 2000000⟩]),
         ("normal", [])] :=
  ⟨c2_normal_on_third_low_tick (defaultConfig (F64.fin 60)) ⟨"turbo", false, 0, 0⟩
      [F64.fin 10, F64.fin 10, F64.fin 10, F64.fin 10] rfl rfl rfl (by decide),
    by decide⟩

/-! ## C3: the first tick -/

/-- C3, as stated, fails for the threshold NaN (`-cpu-usage-threshold NaN` is
accepted by the flag parser): neither `usage < threshold` nor
`usage >= threshold` holds, so the first tick on the sample 70 calls the
applier zero times and leaves the mode Uninitialized. -/
theorem c3_counterexample_nan_threshold :
    (runMonitorTick (defaultConfig F64.nan) MonitorState.initial (F64.fin 70)).2 = [] ∧
      (runMonitorTick (defaultConfig F64.nan) MonitorState.initial
        (F64.fin 70)).1.currentMode = "" := by
  decide

/-- C3 (amended): from the initial state, for every first sample and every
threshold neither of which is NaN, the first tick makes exactly one
`applySettings` call, whatever the validation thresholds: the Normal call,
leaving the mode Normal, if the sample is below the threshold, and the Turbo
call, leaving the mode Turbo, if it is at or above; the mode is not
Uninitialized afterwards. -/
theorem c3_first_tick_forced (config : Config) (usage : F64)
    (husage : usage.isNaN = false) (hthreshold : config.UsageThreshold.isNaN = false) :
    (runMonitorTick config MonitorState.initial usage).2.length = 1 ∧
      (usage.lt config.UsageThreshold = true →
        (runMonitorTick config MonitorState.initial usage).1.currentMode = "normal" ∧
        (runMonitorTick config MonitorState.initial usage).2 = [normalCall config]) ∧
      (usage.ge config.UsageThreshold = true →
        (runMonitorTick config MonitorState.initial usage).1.currentMode = "turbo" ∧
        (runMonitorTick config MonitorState.initial usage).2 = [turboCall config]) ∧
      (runMonitorTick config MonitorState.initial usage).1.currentMode ≠ "" := by
  rw [tick_of_force config MonitorState.initial usage rfl]
  rcases F64.ge_or_lt usage config.UsageThreshold husage hthreshold with hg | hl
  · have hl : usage.lt config.UsageThreshold = false := by
      cases h : usage.lt config.UsageThreshold
      · rfl
      · rw [F64.lt_not_ge _ _ h] at hg; cases hg
    simp [hg, hl, MonitorState.initial]
  · have hg := F64.lt_not_ge _ _ hl
    simp [hg, hl, MonitorState.initial]

/-- C3 at the scenario of the specification: readings 70, 75, 80 against the
threshold 60 from the initial state give Turbo after each of the three ticks,
with the single call of the first tick. -/
theorem c3_first_tick_forced_witness :
    ((runMonitorTick (defaultConfig (F64.fin 60)) MonitorState.initial (F64.fin 70)).2.length = 1 ∧
      ((F64.fin 70).lt (defaultConfig (F64.fin 60)).UsageThreshold = true →
        (runMonitorTick (defaultConfig (F64.fin 60)) MonitorState.initial
          (F64.fin 70)).1.currentMode = "normal" ∧
        (runMonitorTick (defaultConfig (F64.fin 60)) MonitorState.initial (F64.fin 70)).2 =
          [normalCall (defaultConfig (F64.fin 60))]) ∧
      ((F64.fin 70).ge (defaultConfig (F64.fin 60)).UsageThreshold = true →
        (runMonitorTick (defaultConfig (F64.fin 60)) MonitorState.initial
          (F64.fin 70)).1.currentMode = "turbo" ∧
        (runMonitorTick (defaultConfig (F64.fin 60)) MonitorState.initial (F64.fin 70)).2 =
          [turboCall (defaultConfig (F64.fin 60))]) ∧
      (runMonitorTick (defaultConfig (F64.fin 60)) MonitorState.initial
        (F64.fin 70)).1.currentMode ≠ "") ∧
      (runMonitorTrace (defaultConfig (F64.fin 60)) [F64.fin 70, F64.fin 75, F64.fin 80]).map
          (fun r => (r.after.currentMode, r.calls)) =
        [("turbo", [⟨"performance", 400000, 5450000⟩]), ("turbo", []), ("turbo", [])] :=
  ⟨c3_first_tick_forced (defaultConfig (F64.fin 60)) (F64.fin 70) rfl rfl, by decide⟩

/-! ## C4: the two streak counters exclude each other -/

/-- Both counters are non-negative on every run from the initial state. -/
theorem counters_nonneg (config : Config) (usages : List F64) :
    0 ≤ (runMonitor config usages).highUsageCounter ∧
      0 ≤ (runMonitor config usages).lowUsageCounter := by
  induction usages using List.reverseRecOn with
  | nil => simp [runMonitor, runMonitorFrom, MonitorState.initial]
  | append_singleton us u ih =>
    unfold runMonitor at ih ⊢
    rw [runMonitorFrom_append, tick_high, tick_low]
    split_ifs <;> omega

/-- C4: in the initial state and after every tick, for every sequence of
samples and every threshold, highUsageCounter and lowUsageCounter are both at
least 0 and at most one of them is non-zero; after each tick exactly one of
them is non-zero. -/
theorem c4_streaks_mutually_exclusive (config : Config) (usages : List F64) :
    (0 ≤ (runMonitor config usages).highUsageCounter ∧
      0 ≤ (runMonitor config usages).lowUsageCounter ∧
      ((runMonitor config usages).highUsageCounter = 0 ∨
        (runMonitor config usages).lowUsageCounter = 0)) ∧
      ∀ u : F64,
        ((runMonitor config (usages ++ [u])).highUsageCounter ≠ 0 ∧
          (runMonitor config (usages ++ [u])).lowUsageCounter = 0) ∨
        ((runMonitor config (usages ++ [u])).highUsageCounter = 0 ∧
          (runMonitor config (usages ++ [u])).lowUsageCounter ≠ 0) := by
  have key : ∀ (us : List F64) (u : F64),
      ((runMonitor config (us ++ [u])).highUsageCounter ≠ 0 ∧
        (runMonitor config (us ++ [u])).lowUsageCounter = 0) ∨
      ((runMonitor config (us ++ [u])).highUsageCounter = 0 ∧
        (runMonitor config (us ++ [u])).lowUsageCounter ≠ 0) := by
    intro us u
    have hnn := counters_nonneg config us
    unfold runMonitor at hnn ⊢
    rw [runMonitorFrom_append, tick_high, tick_low]
    split_ifs <;> omega
  refine ⟨⟨(counters_nonneg config usages).1, (counters_nonneg config usages).2, ?_⟩, key usages⟩
  induction usages using List.reverseRecOn with
  | nil => simp [runMonitor, runMonitorFrom, MonitorState.initial]
  | append_singleton us u _ =>
    rcases key us u with h | h
    · exact Or.inr h.2
    · exact Or.inl h.1

/-- C4 on the readings 70, 80, 10 against the threshold 60: the counters are
(1, 0), (2, 0) and (0, 1) after the three ticks. -/
theorem c4_streaks_mutually_exclusive_witness :
    ((runMonitor (defaultConfig (F64.fin 60)) [F64.fin 70]).highUsageCounter = 1 ∧
      (runMonitor (defaultConfig (F64.fin 60)) [F64.fin 70]).lowUsageCounter = 0 ∧
      (runMonitor (defaultConfig (F64.fin 60)) [F64.fin 70, F64.fin 80]).highUsageCounter = 2 ∧
      (runMonitor (defaultConfig (F64.fin 60)) [F64.fin 70, F64.fin 80]).lowUsageCounter = 0 ∧
      (runMonitor (defaultConfig (F64.fin 60))
        [F64.fin 70, F64.fin 80, F64.fin 10]).highUsageCounter = 0 ∧
      (runMonitor (defaultConfig (F64.fin 60))
        [F64.fin 70, F64.fin 80, F64.fin 10]).lowUsageCounter = 1) ∧
    ((0 ≤ (runMonitor (defaultConfig (F64.fin 60)) [F64.fin 70, F64.fin 80]).highUsageCounter ∧
      0 ≤ (runMonitor (defaultConfig (F64.fin 60)) [F64.fin 70, F64.fin 80]).lowUsageCounter ∧
      ((runMonitor (defaultConfig (F64.fin 60)) [F64.fin 70, F64.fin 80]).highUsageCounter = 0 ∨
        (runMonitor (defaultConfig (F64.fin 60)) [F64.fin 70, F64.fin 80]).lowUsageCounter = 0)) ∧
      ∀ u : F64,
        ((runMonitor (defaultConfig (F64.fin 60))
            ([F64.fin 70, F64.fin 80] ++ [u])).highUsageCounter ≠ 0 ∧
          (runMonitor (defaultConfig (F64.fin 60))
            ([F64.fin 70, F64.fin 80] ++ [u])).lowUsageCounter = 0) ∨
        ((runMonitor (defaultConfig (F64.fin 60))
            ([F64.fin 70, F64.fin 80] ++ [u])).highUsageCounter = 0 ∧
          (runMonitor (defaultConfig (F64.fin 60))
            ([F64.fin 70, F64.fin 80] ++ [u])).lowUsageCounter ≠ 0)) :=
  ⟨by decide, c4_streaks_mutually_exclusive (defaultConfig (F64.fin 60)) [F64.fin 70, F64.fin 80]⟩

/-! ## C10: no oscillation -/

theorem loopInv_initial : LoopInv MonitorState.initial := by
  simp [LoopInv, MonitorState.initial]

theorem loopInv_tick (c : Config) (s : MonitorState) (u : F64) (h : LoopInv s) :
    LoopInv (runMonitorTick c s u).1 := by
  obtain ⟨hf, hh, hl⟩ := h
  cases hforce : s.forceApplySettings
  · cases hg : u.ge c.UsageThreshold
    · rw [tick_of_not_ge c s u hforce hg]
      split_ifs with hc
      · simp [LoopInv]
      · refine ⟨by simp, by simp, ?_⟩
        intro hn
        have := hl hn
        simp only [hn, ne_eq, not_false_eq_true, true_and, not_le] at hc
        simp only
        omega
    · rw [tick_of_ge c s u hforce hg]
      split_ifs with hc
      · simp [LoopInv]
      · refine ⟨by simp, ?_, by simp⟩
        intro hn
        simp only [hn, ne_eq, not_false_eq_true, true_and, not_le] at hc
        simp only
        omega
  · have hm := hf hforce
    have h1 := hh (by rw [hm]; decide)
    have h2 := hl (by rw [hm]; decide)
    rw [tick_of_force c s u hforce]
    cases hg : u.ge c.UsageThreshold <;> cases hlt : u.lt c.UsageThreshold
    · by_cases hlow : 3 ≤ s.lowUsageCounter + 1
      · simp [LoopInv, hm, hlow]
      · simp [LoopInv, hm, hlow]
        omega
    · simp [LoopInv]
    · simp [LoopInv]
    · have := F64.lt_not_ge _ _ hlt
      simp [hg] at this

/-- What a tick from a state satisfying the loop invariant does: the applier
is called exactly when the mode changes, and once the force flag is cleared a
change makes the streak behind it exactly three. -/
theorem tick_call_iff_change (c : Config) (s : MonitorState) (u : F64) (h : LoopInv s) :
    ((runMonitorTick c s u).2 ≠ [] ↔ (runMonitorTick c s u).1.currentMode ≠ s.currentMode) ∧
      (s.forceApplySettings = false →
        (runMonitorTick c s u).1.currentMode ≠ s.currentMode →
        ((runMonitorTick c s u).1.currentMode = "turbo" ∧
          (runMonitorTick c s u).1.highUsageCounter = 3) ∨
        ((runMonitorTick c s u).1.currentMode = "normal" ∧
          (runMonitorTick c s u).1.lowUsageCounter = 3)) := by
  obtain ⟨hf, hh, hl⟩ := h
  cases hforce : s.forceApplySettings
  · cases hg : u.ge c.UsageThreshold
    · rw [tick_of_not_ge c s u hforce hg]
      split_ifs with hc
      · have := hl hc.1
        refine ⟨by simpa using fun h => hc.1 h.symm, fun _ _ => Or.inr ⟨rfl, ?_⟩⟩
        simp only
        omega
      · simp
    · rw [tick_of_ge c s u hforce hg]
      split_ifs with hc
      · have := hh hc.1
        refine ⟨by simpa using fun h => hc.1 h.symm, fun _ _ => Or.inl ⟨rfl, ?_⟩⟩
        simp only
        omega
      · simp
  · have hm := hf hforce
    have h2 := hl (by rw [hm]; decide)
    rw [tick_of_force c s u hforce]
    cases hg : u.ge c.UsageThreshold <;> cases hlt : u.lt c.UsageThreshold
    · by_cases hlow : 3 ≤ s.lowUsageCounter + 1
      · simp [hm, hlow]
      · simp [hm, hlow]
    · simp [hm]
    · simp [hm]
    · have := F64.lt_not_ge _ _ hlt
      simp [hg] at this

/-- A tick that changes the mode leaves a state from which two further ticks
cannot change it. -/
theorem tick_change_calm (c : Config) (s : MonitorState) (u : F64)
    (h : (runMonitorTick c s u).1.currentMode ≠ s.currentMode) :
    Calm (runMonitorTick c s u).1 2 := by
  refine ⟨tick_force c s u, le_refl _, ?_⟩
  rw [tick_high, tick_low]
  revert h
  unfold runMonitorTick
  simp only []
  cases hg : u.ge c.UsageThreshold <;> cases hl : u.lt c.UsageThreshold <;>
    cases hforce : s.forceApplySettings <;>
    simp [turboValidationThreshold, normalValidationThreshold] <;>
    first
    | (have hnge := F64.lt_not_ge _ _ hl; simp_all; done)
    | (split_ifs <;> simp_all)

/-- From a calm state a tick does not change the mode, and uses up one tick
of the margin. -/
theorem tick_calm (c : Config) (s : MonitorState) (u : F64) (n : Int) (hn : 0 ≤ n)
    (h : Calm s (n + 1)) :
    (runMonitorTick c s u).1.currentMode = s.currentMode ∧ Calm (runMonitorTick c s u).1 n := by
  obtain ⟨hforce, hn2, hmode⟩ := h
  cases hg : u.ge c.UsageThreshold
  · rw [tick_of_not_ge c s u hforce hg]
    rcases hmode with ⟨hm, hb⟩ | ⟨hm, hb⟩
    · have : ¬ (s.currentMode ≠ "normal" ∧ 3 ≤ s.lowUsageCounter + 1) := by
        intro hc; omega
      rw [if_neg this]
      exact ⟨rfl, rfl, by omega, Or.inl ⟨hm, by simp only; omega⟩⟩
    · have : ¬ (s.currentMode ≠ "normal" ∧ 3 ≤ s.lowUsageCounter + 1) := by
        intro hc; exact hc.1 hm
      rw [if_neg this]
      exact ⟨rfl, rfl, by omega, Or.inr ⟨hm, by simp only; omega⟩⟩
  · rw [tick_of_ge c s u hforce hg]
    rcases hmode with ⟨hm, hb⟩ | ⟨hm, hb⟩
    · have : ¬ (s.currentMode ≠ "turbo" ∧ 3 ≤ s.highUsageCounter + 1) := by
        intro hc; exact hc.1 hm
      rw [if_neg this]
      exact ⟨rfl, rfl, by omega, Or.inl ⟨hm, by simp only; omega⟩⟩
    · have : ¬ (s.currentMode ≠ "turbo" ∧ 3 ≤ s.highUsageCounter + 1) := by
        intro hc; omega
      rw [if_neg this]
      exact ⟨rfl, rfl, by omega, Or.inr ⟨hm, by simp only; omega⟩⟩

/-- From a state that is calm for `n` ticks, none of the first `n` ticks
changes the mode. -/
theorem calm_no_change (c : Config) (usages : List F64) :
    ∀ (s : MonitorState) (n : Nat), Calm s n → ∀ (k : Nat) (r : TickRecord),
      (runMonitorTraceFrom c s usages)[k]? = some r → k < n → ¬ r.modeChanged := by
  induction usages with
  | nil => intro s n _ k r h; simp [runMonitorTraceFrom] at h
  | cons a rest ih =>
    intro s n hs k r h hk
    obtain ⟨m, rfl⟩ : ∃ m, n = m + 1 := ⟨n - 1, by omega⟩
    have hc := tick_calm c s a (m : Int) (by omega) (by simpa using hs)
    cases k with
    | zero =>
      simp [runMonitorTraceFrom] at h
      subst h
      simp [TickRecord.modeChanged, hc.1]
    | succ k =>
      simp only [runMonitorTraceFrom, List.getElem?_cons_succ] at h
      exact ih _ m hc.2 k r h (by omega)

/-- Two ticks that change the mode are at least three ticks apart, from any
starting state. -/
theorem changes_three_apart (c : Config) (usages : List F64) :
    ∀ (s : MonitorState) (i j : Nat) (ri rj : TickRecord),
      (runMonitorTraceFrom c s usages)[i]? = some ri →
      (runMonitorTraceFrom c s usages)[j]? = some rj →
      i < j → ri.modeChanged → rj.modeChanged → i + 3 ≤ j := by
  induction usages with
  | nil => intro s i j ri rj h; simp [runMonitorTraceFrom] at h
  | cons a rest ih =>
    intro s i j ri rj hi hj hij hci hcj
    obtain ⟨j', rfl⟩ : ∃ j', j = j' + 1 := ⟨j - 1, by omega⟩
    simp only [runMonitorTraceFrom, List.getElem?_cons_succ] at hj
    cases i with
    | zero =>
      simp [runMonitorTraceFrom] at hi
      subst hi
      have hcalm := tick_change_calm c s a hci
      by_contra hlt
      exact calm_no_change c rest _ 2 (by simpa using hcalm) j' rj hj (by omega) hcj
    | succ i =>
      simp only [runMonitorTraceFrom, List.getElem?_cons_succ] at hi
      have := ih _ i j' ri rj hi hj (by omega) hci hcj
      omega

/-- Every record of a run from a state satisfying the loop invariant is the
record of a tick from a state satisfying it; past the first tick the force
flag is cleared. -/
theorem trace_records (c : Config) (usages : List F64) :
    ∀ (s : MonitorState), LoopInv s → ∀ (k : Nat) (r : TickRecord),
      (runMonitorTraceFrom c s usages)[k]? = some r →
      LoopInv r.before ∧ r.after = (runMonitorTick c r.before r.usage).1 ∧
        r.calls = (runMonitorTick c r.before r.usage).2 ∧
        (1 ≤ k → r.before.forceApplySettings = false) := by
  induction usages with
  | nil => intro s _ k r h; simp [runMonitorTraceFrom] at h
  | cons a rest ih =>
    intro s hs k r h
    cases k with
    | zero =>
      simp [runMonitorTraceFrom] at h
      subst h
      exact ⟨hs, rfl, rfl, by omega⟩
    | succ k =>
      simp only [runMonitorTraceFrom, List.getElem?_cons_succ] at h
      obtain ⟨h1, h2, h3, h4⟩ := ih _ (loopInv_tick c s a hs) k r h
      refine ⟨h1, h2, h3, fun _ => ?_⟩
      cases k with
      | zero =>
        cases rest with
        | nil => simp [runMonitorTraceFrom] at h
        | cons b rest' =>
          simp [runMonitorTraceFrom] at h
          subst h
          exact tick_force c s a
      | succ k => exact h4 (by omega)

/-- C10: for every sequence of samples and every threshold, on the run from
the initial state there is one record per sample; the applier is called at a
tick if and only if the mode changes at that tick; two ticks at which the mode
changes are at least three ticks apart; and after the first tick a change to
Turbo happens only with highUsageCounter exactly 3 and a change to Normal only
with lowUsageCounter exactly 3. -/
theorem c10_no_oscillation (config : Config) (usages : List F64) :
    (runMonitorTrace config usages).length = usages.length ∧
      (∀ (k : Nat) (r : TickRecord), (runMonitorTrace config usages)[k]? = some r →
        (r.calls ≠ [] ↔ r.modeChanged)) ∧
      (∀ (i j : Nat) (ri rj : TickRecord),
        (runMonitorTrace config usages)[i]? = some ri →
        (runMonitorTrace config usages)[j]? = some rj →
        i < j → ri.modeChanged → rj.modeChanged → i + 3 ≤ j) ∧
      (∀ (k : Nat) (r : TickRecord), (runMonitorTrace config usages)[k]? = some r →
        1 ≤ k → r.modeChanged →
        (r.after.currentMode = "turbo" ∧ r.after.highUsageCounter = 3) ∨
        (r.after.currentMode = "normal" ∧ r.after.lowUsageCounter = 3)) := by
  refine ⟨runMonitorTraceFrom_length _ _ _, ?_, ?_, ?_⟩
  · intro k r h
    obtain ⟨h1, h2, h3, _⟩ := trace_records config usages _ loopInv_initial k r h
    have := (tick_call_iff_change config r.before r.usage h1).1
    rw [← h2, ← h3] at this
    exact this
  · exact changes_three_apart config usages MonitorState.initial
  · intro k r h hk hc
    obtain ⟨h1, h2, h3, h4⟩ := trace_records config usages _ loopInv_initial k r h
    have := (tick_call_iff_change config r.before r.usage h1).2 (h4 hk)
    rw [← h2] at this
    exact this hc

/-- C10 on the readings 70, 10, 10, 10, 80, 80, 80 against the threshold 60:
the mode changes at the ticks 0, 3 and 6, exactly three apart, each time with
one call, and at no other tick. -/
theorem c10_no_oscillation_witness :
    (runMonitorTrace (defaultConfig (F64.fin 60))
        [F64.fin 70, F64.fin 10, F64.fin 10, F64.fin 10, F64.fin 80, F64.fin 80, F64.fin 80]).map
        (fun r => (r.before.currentMode, r.after.currentMode, r.calls.length)) =
      [("", "turbo", 1), ("turbo", "turbo", 0), ("turbo", "turbo", 0), ("turbo", "normal", 1),
       ("normal", "normal", 0), ("normal", "normal", 0), ("normal", "turbo", 1)] ∧
    ((runMonitorTrace (defaultConfig (F64.fin 60))
        [F64.fin 70, F64.fin 10, F64.fin 10, F64.fin 10, F64.fin 80, F64.fin 80,
         F64.fin 80]).length =
        [F64.fin 70, F64.fin 10, F64.fin 10, F64.fin 10, F64.fin 80, F64.fin 80,
         F64.fin 80].length ∧
      (∀ (k : Nat) (r : TickRecord),
        (runMonitorTrace (defaultConfig (F64.fin 60))
          [F64.fin 70, F64.fin 10, F64.fin 10, F64.fin 10, F64.fin 80, F64.fin 80,
           F64.fin 80])[k]? = some r →
        (r.calls ≠ [] ↔ r.modeChanged)) ∧
      (∀ (i j : Nat) (ri rj : TickRecord),
        (runMonitorTrace (defaultConfig (F64.fin 60))
          [F64.fin 70, F64.fin 10, F64.fin 10, F64.fin 10, F64.fin 80, F64.fin 80,
           F64.fin 80])[i]? = some ri →
        (runMonitorTrace (defaultConfig (F64.fin 60))
          [F64.fin 70, F64.fin 10, F64.fin 10, F64.fin 10, F64.fin 80, F64.fin 80,
           F64.fin 80])[j]? = some rj →
        i < j → ri.modeChanged → rj.modeChanged → i + 3 ≤ j) ∧
      (∀ (k : Nat) (r : TickRecord),
        (runMonitorTrace (defaultConfig (F64.fin 60))
          [F64.fin 70, F64.fin 10, F64.fin 10, F64.fin 10, F64.fin 80, F64.fin 80,
           F64.fin 80])[k]? = some r →
        1 ≤ k → r.modeChanged →
        (r.after.currentMode = "turbo" ∧ r.after.highUsageCounter = 3) ∨
        (r.after.currentMode = "normal" ∧ r.after.lowUsageCounter = 3))) :=
  ⟨by decide, c10_no_oscillation (defaultConfig (F64.fin 60))
    [F64.fin 70, F64.fin 10, F64.fin 10, F64.fin 10, F64.fin 80, F64.fin 80, F64.fin 80]⟩

/-! ## C5, C6: the operations of `applySettings` -/

/-- The operations of the first loop, over any list of cores. -/
theorem forCores_firstPass_ops {σ : Type} (sink : Sink σ) (governor : String)
    (minFreq maxFreq : Int) (cores : List Nat) :
    ∀ st : σ, (forCores (applyFirstPassBody sink governor minFreq maxFreq) cores st).2 =
      cores.flatMap (fun i =>
        [SinkOp.WriteMax i maxFreq, SinkOp.WriteMin i minFreq, SinkOp.WriteGovernor i governor]) := by
  induction cores with
  | nil => intro st; rfl
  | cons i rest ih => intro st; simp [forCores, applyFirstPassBody, ih]

/-- The operations of the second loop, over any list of cores: per core the
two reads, then the corrective writes their results call for. -/
theorem forCores_verify_ops {σ : Type} (sink : Sink σ) (minFreq maxFreq : Int)
    (cores : List Nat) :
    ∀ st : σ, ∃ readbacks : List (Int × Int), readbacks.length = cores.length ∧
      (forCores (applyVerifyBody sink minFreq maxFreq) cores st).2 =
        (cores.zip readbacks).flatMap (fun p =>
          [SinkOp.ReadMax p.1 p.2.1, SinkOp.ReadMin p.1 p.2.2] ++
            ((if p.2.1 ≠ maxFreq then [SinkOp.WriteMax p.1 maxFreq] else []) ++
             (if p.2.2 ≠ minFreq then [SinkOp.WriteMin p.1 minFreq] else []))) := by
  induction cores with
  | nil => intro st; exact ⟨[], rfl, rfl⟩
  | cons i rest ih =>
    intro st
    obtain ⟨rb, hlen, hops⟩ := ih (applyVerifyBody sink minFreq maxFreq i st).1
    refine ⟨((sink.getMaxFrequency i st).1,
      (sink.getMinFrequency i (sink.getMaxFrequency i st).2).1) :: rb, by simp [hlen], ?_⟩
    simp only [forCores, hops, List.zip_cons_cons, List.flatMap_cons]
    simp [applyVerifyBody, correctiveOps]

/-- The reads among the operations of a verification pass. -/
theorem verify_ops_reads (minFreq maxFreq : Int) :
    ∀ (cores : List Nat) (readbacks : List (Int × Int)), readbacks.length = cores.length →
      ((cores.zip readbacks).flatMap (fun p =>
          [SinkOp.ReadMax p.1 p.2.1, SinkOp.ReadMin p.1 p.2.2] ++
            ((if p.2.1 ≠ maxFreq then [SinkOp.WriteMax p.1 maxFreq] else []) ++
             (if p.2.2 ≠ minFreq then [SinkOp.WriteMin p.1 minFreq] else [])))).filterMap
        SinkOp.readTarget =
      cores.flatMap (fun i => [(Quantity.max, i), (Quantity.min, i)]) := by
  intro cores
  induction cores with
  | nil => intro rb _; simp
  | cons i rest ih =>
    intro rb hlen
    cases rb with
    | nil => simp at hlen
    | cons p rb' =>
      have hlen' : rb'.length = rest.length := by simpa using hlen
      have := ih rb' hlen'
      simp only [List.zip_cons_cons, List.flatMap_cons, List.filterMap_append, this]
      by_cases h1 : p.1 = maxFreq <;> by_cases h2 : p.2 = minFreq <;>
        simp [SinkOp.readTarget, h1, h2]

/-- A bound on the elements of a flattened list that pass a test, from a bound
on each piece. -/
theorem flatMap_filter_length_le {α β : Type} (f : α → List β) (q : β → Bool) (n : Nat)
    (h : ∀ a, ((f a).filter q).length ≤ n) (l : List α) :
    ((l.flatMap f).filter q).length ≤ n * l.length := by
  induction l with
  | nil => simp
  | cons a rest ih =>
    have := h a
    simp only [List.flatMap_cons, List.filter_append, List.length_append, List.length_cons]
    rw [Nat.mul_succ]
    omega

/-- The writes among the operations of a verification pass are at most two a
core. -/
theorem verify_ops_writes_le (minFreq maxFreq : Int) (cores : List Nat)
    (readbacks : List (Int × Int)) :
    (((cores.zip readbacks).flatMap (fun p =>
          [SinkOp.ReadMax p.1 p.2.1, SinkOp.ReadMin p.1 p.2.2] ++
            ((if p.2.1 ≠ maxFreq then [SinkOp.WriteMax p.1 maxFreq] else []) ++
             (if p.2.2 ≠ minFreq then [SinkOp.WriteMin p.1 minFreq] else [])))).filter
        SinkOp.isWrite).length ≤ 2 * cores.length := by
  refine le_trans (flatMap_filter_length_le _ _ 2 ?_ _) ?_
  · intro p
    by_cases h1 : p.2.1 = maxFreq <;> by_cases h2 : p.2.2 = minFreq <;>
      simp [SinkOp.isWrite, h1, h2]
  · have : (cores.zip readbacks).length ≤ cores.length := by
      rw [List.length_zip]; exact min_le_left _ _
    omega

theorem firstPass_ops_length (governor : String) (minFreq maxFreq : Int) (cores : List Nat) :
    (cores.flatMap (fun i =>
      [SinkOp.WriteMax i maxFreq, SinkOp.WriteMin i minFreq,
       SinkOp.WriteGovernor i governor])).length = 3 * cores.length := by
  induction cores with
  | nil => rfl
  | cons i rest ih => simp [ih]; omega

/-- C5: for every sink, target and core count N, the operations of
`applySettings` are the 3N writes WriteMax(i,X), WriteMin(i,M),
WriteGovernor(i,G) for the cores i = 0..N-1 in ascending order, followed by a
verification part whose reads are, in order, the max and then the min of each
core 0..N-1, each once, and no governor. -/
theorem c5_first_pass_then_readback {σ : Type} (sink : Sink σ) (governor : String)
    (minFreq maxFreq : Int) (cpuCount : Nat) (st : σ) :
    ∃ verification : List SinkOp,
      (applySettings sink governor minFreq maxFreq cpuCount st).2 =
        (List.range cpuCount).flatMap (fun i =>
          [SinkOp.WriteMax i maxFreq, SinkOp.WriteMin i minFreq,
           SinkOp.WriteGovernor i governor]) ++ verification ∧
      ((List.range cpuCount).flatMap (fun i =>
          [SinkOp.WriteMax i maxFreq, SinkOp.WriteMin i minFreq,
           SinkOp.WriteGovernor i governor])).length = 3 * cpuCount ∧
      verification.filterMap SinkOp.readTarget =
        (List.range cpuCount).flatMap (fun i => [(Quantity.max, i), (Quantity.min, i)]) := by
  obtain ⟨rb, hlen, hops⟩ := forCores_verify_ops sink minFreq maxFreq (List.range cpuCount)
    (applyFirstPass sink governor minFreq maxFreq cpuCount st).1
  refine ⟨(applyVerifyPass sink minFreq maxFreq cpuCount
    (applyFirstPass sink governor minFreq maxFreq cpuCount st).1).2, ?_, ?_, ?_⟩
  · simp only [applySettings, applyFirstPass, forCores_firstPass_ops]
  · simpa using firstPass_ops_length governor minFreq maxFreq (List.range cpuCount)
  · unfold applyVerifyPass
    rw [hops]
    exact verify_ops_reads minFreq maxFreq _ rb hlen

/-- C5 at the scenario of the specification: 4 cores, min 400000, max
5450000, on a sink that stores what is written: 4 max-writes, 4 min-writes and
4 governor-writes, core by core, then 4 max reads and 4 min reads. -/
theorem c5_first_pass_then_readback_witness :
    (applySettings storingSink "performance" 400000 5450000 4
        (fun _ => ⟨400000, 2000000, "powersave"⟩)).2 =
      [SinkOp.WriteMax 0 5450000, SinkOp.WriteMin 0 400000, SinkOp.WriteGovernor 0 "performance",
       SinkOp.WriteMax 1 5450000, SinkOp.WriteMin 1 400000, SinkOp.WriteGovernor 1 "performance",
       SinkOp.WriteMax 2 5450000, SinkOp.WriteMin 2 400000, SinkOp.WriteGovernor 2 "performance",
       SinkOp.WriteMax 3 5450000, SinkOp.WriteMin 3 400000, SinkOp.WriteGovernor 3 "performance",
       SinkOp.ReadMax 0 5450000, SinkOp.ReadMin 0 400000,
       SinkOp.ReadMax 1 5450000, SinkOp.ReadMin 1 400000,
       SinkOp.ReadMax 2 5450000, SinkOp.ReadMin 2 400000,
       SinkOp.ReadMax 3 5450000, SinkOp.ReadMin 3 400000] ∧
    ∃ verification : List SinkOp,
      (applySettings storingSink "performance" 400000 5450000 4
          (fun _ => ⟨400000, 2000000, "powersave"⟩)).2 =
        (List.range 4).flatMap (fun i =>
          [SinkOp.WriteMax i 5450000, SinkOp.WriteMin i 400000,
           SinkOp.WriteGovernor i "performance"]) ++ verification ∧
      ((List.range 4).flatMap (fun i =>
          [SinkOp.WriteMax i 5450000, SinkOp.WriteMin i 400000,
           SinkOp.WriteGovernor i "performance"])).length = 3 * 4 ∧
      verification.filterMap SinkOp.readTarget =
        (List.range 4).flatMap (fun i => [(Quantity.max, i), (Quantity.min, i)]) :=
  ⟨by decide, c5_first_pass_then_readback storingSink "performance" 400000 5450000 4
    (fun _ => ⟨400000, 2000000, "powersave"⟩)⟩

/-- C6: for every sink, target and core count N, what `applySettings` does
after its first pass is, for each core i = 0..N-1 in order: read the max (a),
read the min (b), write WriteMax(i,X) exactly when a differs from X, write
WriteMin(i,M) exactly when b differs from M. So a core whose readbacks both
match gets no write, no governor is written again, nothing is read after the
corrective write of a core, and the corrective writes number at most 2N. -/
theorem c6_verification_pass {σ : Type} (sink : Sink σ) (governor : String)
    (minFreq maxFreq : Int) (cpuCount : Nat) (st : σ) :
    ∃ readbacks : List (Int × Int), readbacks.length = cpuCount ∧
      (applySettings sink governor minFreq maxFreq cpuCount st).2 =
        (List.range cpuCount).flatMap (fun i =>
          [SinkOp.WriteMax i maxFreq, SinkOp.WriteMin i minFreq,
           SinkOp.WriteGovernor i governor]) ++
        ((List.range cpuCount).zip readbacks).flatMap (fun p =>
          [SinkOp.ReadMax p.1 p.2.1, SinkOp.ReadMin p.1 p.2.2] ++
            ((if p.2.1 ≠ maxFreq then [SinkOp.WriteMax p.1 maxFreq] else []) ++
             (if p.2.2 ≠ minFreq then [SinkOp.WriteMin p.1 minFreq] else []))) ∧
      ((((List.range cpuCount).zip readbacks).flatMap (fun p =>
          [SinkOp.ReadMax p.1 p.2.1, SinkOp.ReadMin p.1 p.2.2] ++
            ((if p.2.1 ≠ maxFreq then [SinkOp.WriteMax p.1 maxFreq] else []) ++
             (if p.2.2 ≠ minFreq then [SinkOp.WriteMin p.1 minFreq] else [])))).filter
        SinkOp.isWrite).length ≤ 2 * cpuCount := by
  obtain ⟨rb, hlen, hops⟩ := forCores_verify_ops sink minFreq maxFreq (List.range cpuCount)
    (applyFirstPass sink governor minFreq maxFreq cpuCount st).1
  refine ⟨rb, by simpa using hlen, ?_, ?_⟩
  · simp only [applySettings, applyVerifyPass, hops]
    simp only [applyFirstPass, forCores_firstPass_ops]
  · simpa using verify_ops_writes_le minFreq maxFreq (List.range cpuCount) rb

/-- C6 on a sink whose core 1 takes no write, with 3 cores: only core 1 gets
corrective writes, one for the max and one for the min. -/
theorem c6_verification_pass_witness :
    (applySettings (deadCoreSink 1) "performance" 400000 5450000 3
        (fun _ => ⟨800000, 2000000, "powersave"⟩)).2 =
      [SinkOp.WriteMax 0 5450000, SinkOp.WriteMin 0 400000, SinkOp.WriteGovernor 0 "performance",
       SinkOp.WriteMax 1 5450000, SinkOp.WriteMin 1 400000, SinkOp.WriteGovernor 1 "performance",
       SinkOp.WriteMax 2 5450000, SinkOp.WriteMin 2 400000, SinkOp.WriteGovernor 2 "performance",
       SinkOp.ReadMax 0 5450000, SinkOp.ReadMin 0 400000,
       SinkOp.ReadMax 1 2000000, SinkOp.ReadMin 1 800000,
       SinkOp.WriteMax 1 5450000, SinkOp.WriteMin 1 400000,
       SinkOp.ReadMax 2 5450000, SinkOp.ReadMin 2 400000] ∧
    ∃ readbacks : List (Int × Int), readbacks.length = 3 ∧
      (applySettings (deadCoreSink 1) "performance" 400000 5450000 3
          (fun _ => ⟨800000, 2000000, "powersave"⟩)).2 =
        (List.range 3).flatMap (fun i =>
          [SinkOp.WriteMax i 5450000, SinkOp.WriteMin i 400000,
           SinkOp.WriteGovernor i "performance"]) ++
        ((List.range 3).zip readbacks).flatMap (fun p =>
          [SinkOp.ReadMax p.1 p.2.1, SinkOp.ReadMin p.1 p.2.2] ++
            ((if p.2.1 ≠ 5450000 then [SinkOp.WriteMax p.1 5450000] else []) ++
             (if p.2.2 ≠ 400000 then [SinkOp.WriteMin p.1 400000] else []))) ∧
      ((((List.range 3).zip readbacks).flatMap (fun p =>
          [SinkOp.ReadMax p.1 p.2.1, SinkOp.ReadMin p.1 p.2.2] ++
            ((if p.2.1 ≠ 5450000 then [SinkOp.WriteMax p.1 5450000] else []) ++
             (if p.2.2 ≠ 400000 then [SinkOp.WriteMin p.1 400000] else [])))).filter
        SinkOp.isWrite).length ≤ 2 * 3 :=
  ⟨by decide, c6_verification_pass (deadCoreSink 1) "performance" 400000 5450000 3
    (fun _ => ⟨800000, 2000000, "powersave"⟩)⟩

/-! ## C7: the restore handler -/

/-- The operations of the restore handler, for every snapshot, sink and core
count: the three writes of the snapshot per core, governor first, then min,
then max, and nothing else. -/
theorem setupSignalHandler_ops {σ : Type} (sink : Sink σ) (original : CPUSettings)
    (cpuCount : Nat) (st : σ) :
    (setupSignalHandler sink original cpuCount st).2 =
      (List.range cpuCount).flatMap (fun i =>
        [SinkOp.WriteGovernor i original.Governor, SinkOp.WriteMin i original.MinFreq,
         SinkOp.WriteMax i original.MaxFreq]) := by
  unfold setupSignalHandler
  generalize List.range cpuCount = cores
  induction cores generalizing st with
  | nil => rfl
  | cons i rest ih => simp [forCores, restoreBody, ih]

/-- C7 at the failing input: snapshot (governor schedutil, min 2200000, max
3000000), one core currently at the Normal profile (powersave, 400000,
2000000). The handler writes governor, min, max and reads nothing, where
`applySettings` on the same snapshot writes max, min, governor and then reads
max and min back; on a sink that refuses a min above the current max the
handler leaves the min at 400000 while `applySettings` restores 2200000. -/
theorem c7_restore_differs_from_applySettings :
    (setupSignalHandler rangeCheckedSink ⟨2200000, 3000000, "schedutil"⟩ 1
        (fun _ => ⟨400000, 2000000, "powersave"⟩)).2 =
      [SinkOp.WriteGovernor 0 "schedutil", SinkOp.WriteMin 0 2200000,
       SinkOp.WriteMax 0 3000000] ∧
    (applySettings rangeCheckedSink "schedutil" 2200000 3000000 1
        (fun _ => ⟨400000, 2000000, "powersave"⟩)).2 =
      [SinkOp.WriteMax 0 3000000, SinkOp.WriteMin 0 2200000,
       SinkOp.WriteGovernor 0 "schedutil",
       SinkOp.ReadMax 0 3000000, SinkOp.ReadMin 0 2200000] ∧
    (setupSignalHandler rangeCheckedSink ⟨2200000, 3000000, "schedutil"⟩ 1
        (fun _ => ⟨400000, 2000000, "powersave"⟩)).1 0 = ⟨400000, 3000000, "schedutil"⟩ ∧
    (applySettings rangeCheckedSink "schedutil" 2200000 3000000 1
        (fun _ => ⟨400000, 2000000, "powersave"⟩)).1 0 = ⟨2200000, 3000000, "schedutil"⟩ := by
  decide

/-! ## C8: the range of `getCPUUsage` -/

theorem activeDelta_lt (t1 t2 : CPUTimes) : activeDelta t1 t2 < 2 ^ 64 := by
  unfold activeDelta addUint64
  exact Nat.mod_lt _ (by norm_num)

theorem idleDelta_lt (t1 t2 : CPUTimes) : idleDelta t1 t2 < 2 ^ 64 := by
  unfold idleDelta addUint64
  exact Nat.mod_lt _ (by norm_num)

/-- Rounding to the nearest integer does not go above an integer bound. -/
theorem roundTiesToEven_le (x : ℚ) (z : ℤ) (h : x ≤ z) : roundTiesToEven x ≤ z := by
  have hf : ⌊x⌋ ≤ z := by
    have : (⌊x⌋ : ℚ) ≤ z := le_trans (Int.floor_le x) h
    exact_mod_cast this
  unfold roundTiesToEven
  rcases lt_or_eq_of_le hf with hlt | heq
  · split_ifs <;> omega
  · have hx : x = ⌊x⌋ := le_antisymm (by rw [heq]; exact h) (Int.floor_le x)
    have : x - ⌊x⌋ < 1 / 2 := by rw [← hx]; norm_num
    rw [if_pos this]
    exact hf

/-- Rounding to the nearest integer does not go below an integer bound. -/
theorem le_roundTiesToEven (x : ℚ) (z : ℤ) (h : (z : ℚ) ≤ x) : z ≤ roundTiesToEven x := by
  have hf : z ≤ ⌊x⌋ := Int.le_floor.mpr h
  unfold roundTiesToEven
  split_ifs <;> omega

theorem roundTiesToEven_intCast (z : ℤ) : roundTiesToEven (z : ℚ) = z := by
  unfold roundTiesToEven
  simp

/-- The rounding of a value whose floor is known. -/
theorem roundTiesToEven_of_floor (x : ℚ) (f : ℤ) (h1 : (f : ℚ) ≤ x) (h2 : x < f + 1) :
    roundTiesToEven x =
      if x - f < 1 / 2 then f else if 1 / 2 < x - f then f + 1
      else if f % 2 = 0 then f else f + 1 := by
  have hf : ⌊x⌋ = f := Int.floor_eq_iff.mpr ⟨h1, h2⟩
  unfold roundTiesToEven
  rw [hf]

theorem two_zpow_pos (k : ℤ) : (0 : ℚ) < 2 ^ k := zpow_pos (by norm_num) k

/-- The unit in the last place of a positive value whose binary exponent is
known. -/
theorem ulpExponent_of_bounds (q : ℚ) (e : ℤ) (he : -1022 ≤ e)
    (h1 : (2 : ℚ) ^ e ≤ q) (h2 : q < 2 ^ (e + 1)) : ulpExponent q = e - 52 := by
  have hq : 0 < q := lt_of_lt_of_le (two_zpow_pos e) h1
  have hle : e ≤ Int.log 2 q := by
    rw [← Int.zpow_le_iff_le_log (by norm_num) hq]
    exact_mod_cast h1
  have hlt : Int.log 2 q < e + 1 := by
    rw [← Int.lt_zpow_iff_log_lt (by norm_num) hq]
    exact_mod_cast h2
  unfold ulpExponent
  omega

/-- The float64 nearest to a positive value whose binary exponent is known. -/
theorem roundFloat64_of_bounds (q : ℚ) (e : ℤ) (he : -1022 ≤ e)
    (h1 : (2 : ℚ) ^ e ≤ q) (h2 : q < 2 ^ (e + 1)) :
    roundFloat64 q = (roundTiesToEven (q / 2 ^ (e - 52)) : ℚ) * 2 ^ (e - 52) := by
  have hq : 0 < q := lt_of_lt_of_le (two_zpow_pos e) h1
  unfold roundFloat64
  rw [if_neg (ne_of_gt hq), if_pos hq, ulpExponent_of_bounds q e he h1 h2]

theorem roundFloat64_nonneg (q : ℚ) (h : 0 ≤ q) : 0 ≤ roundFloat64 q := by
  unfold roundFloat64
  split_ifs with h0 hpos
  · exact le_refl _
  · have hx : ((0 : ℤ) : ℚ) ≤ q / 2 ^ ulpExponent q := by
      simpa using div_nonneg h (le_of_lt (two_zpow_pos _))
    have hr := le_roundTiesToEven _ 0 hx
    have hc : (0 : ℚ) ≤ (roundTiesToEven (q / 2 ^ ulpExponent q) : ℚ) := by exact_mod_cast hr
    exact mul_nonneg hc (le_of_lt (two_zpow_pos _))
  · exact absurd (lt_of_le_of_ne h (Ne.symm h0)) hpos

/-- A positive value that is a whole number of units in the last place is a
float64 and is not changed by rounding. -/
theorem roundFloat64_exact (q : ℚ) (hq : 0 < q) (z : ℤ) (hz : q / 2 ^ ulpExponent q = z) :
    roundFloat64 q = q := by
  unfold roundFloat64
  rw [if_neg (ne_of_gt hq), if_pos hq, hz, roundTiesToEven_intCast, ← hz]
  exact div_mul_cancel₀ _ (ne_of_gt (two_zpow_pos _))

/-- Every natural number below 2^53 is a float64. -/
theorem roundFloat64_natCast (n : ℕ) (h : n < 2 ^ 53) : roundFloat64 (n : ℚ) = n := by
  rcases Nat.eq_zero_or_pos n with h0 | hpos
  · subst h0; simp [roundFloat64]
  · have hq : (0 : ℚ) < n := by exact_mod_cast hpos
    have hlog : Int.log 2 (n : ℚ) = Nat.log 2 n := Int.log_natCast 2 n
    have hlt : Nat.log 2 n < 53 := Nat.log_lt_of_lt_pow (by omega) h
    have hu : ulpExponent (n : ℚ) = -((52 - Nat.log 2 n : ℕ) : ℤ) := by
      unfold ulpExponent
      rw [hlog]
      omega
    refine roundFloat64_exact _ hq ((n * 2 ^ (52 - Nat.log 2 n) : ℕ) : ℤ) ?_
    rw [hu, zpow_neg, zpow_natCast]
    push_cast
    field_simp

/-- Rounding a value between 0 and 100 gives at most 100, 100 being a
float64. -/
theorem roundFloat64_le_hundred (q : ℚ) (h0 : 0 ≤ q) (h : q ≤ 100) : roundFloat64 q ≤ 100 := by
  rcases eq_or_lt_of_le h0 with hz | hq
  · rw [← hz]; simp [roundFloat64]
  · have hlog : Int.log 2 q < 7 := by
      rw [← Int.lt_zpow_iff_log_lt (by norm_num) hq]
      norm_num
      linarith
    have hE : max (Int.log 2 q) (-1022) ≤ 6 := by omega
    have hlt := Int.lt_zpow_succ_log_self (b := 2) (by norm_num) q
    have hupos := two_zpow_pos (ulpExponent q)
    have hq53 : q < 2 ^ (ulpExponent q + 53) := by
      refine lt_of_lt_of_le hlt ?_
      have : Int.log 2 q + 1 ≤ ulpExponent q + 53 := by unfold ulpExponent; omega
      exact_mod_cast zpow_le_zpow_right₀ (by norm_num : (1 : ℚ) ≤ 2) this
    unfold roundFloat64
    rw [if_neg (ne_of_gt hq), if_pos hq]
    rcases lt_or_eq_of_le hE with hlt6 | heq6
    · have hx : q / 2 ^ ulpExponent q ≤ ((2 ^ 53 : ℤ) : ℚ) := by
        rw [div_le_iff₀ hupos]
        have : (2 : ℚ) ^ (ulpExponent q + 53) = ((2 ^ 53 : ℤ) : ℚ) * 2 ^ ulpExponent q := by
          rw [zpow_add₀ (by norm_num)]; push_cast; ring
        rw [← this]; exact le_of_lt hq53
      have hr := roundTiesToEven_le _ _ hx
      have hr53 : (roundTiesToEven (q / 2 ^ ulpExponent q) : ℚ) ≤ 2 ^ 53 := by exact_mod_cast hr
      have hu5 : ulpExponent q + 53 ≤ 6 := by unfold ulpExponent; omega
      calc (roundTiesToEven (q / 2 ^ ulpExponent q) : ℚ) * 2 ^ ulpExponent q
          ≤ 2 ^ 53 * 2 ^ ulpExponent q := mul_le_mul_of_nonneg_right hr53 (le_of_lt hupos)
        _ = 2 ^ (ulpExponent q + 53) := by
          rw [zpow_add₀ (by norm_num)]; norm_cast; ring
        _ ≤ 2 ^ (6 : ℤ) := zpow_le_zpow_right₀ (by norm_num) hu5
        _ ≤ 100 := by norm_num
    · have hu : ulpExponent q = -46 := by unfold ulpExponent; omega
      rw [hu]
      have hx : q / 2 ^ (-46 : ℤ) ≤ ((100 * 2 ^ 46 : ℤ) : ℚ) := by
        rw [div_le_iff₀ (two_zpow_pos _)]
        norm_num
        linarith
      have hr := roundTiesToEven_le _ _ hx
      have hr46 : (roundTiesToEven (q / 2 ^ (-46 : ℤ)) : ℚ) ≤ 100 * 2 ^ 46 := by
        exact_mod_cast hr
      calc (roundTiesToEven (q / 2 ^ (-46 : ℤ)) : ℚ) * 2 ^ (-46 : ℤ)
          ≤ 100 * 2 ^ 46 * 2 ^ (-46 : ℤ) :=
            mul_le_mul_of_nonneg_right hr46 (le_of_lt (two_zpow_pos _))
        _ = 100 := by norm_num

/-- Rounding a value of at least 2^53 gives at least 2^53. -/
theorem le_roundFloat64_of_large (q : ℚ) (h : 2 ^ 53 ≤ q) : 2 ^ 53 ≤ roundFloat64 q := by
  have hq : 0 < q := lt_of_lt_of_le (by norm_num) h
  have hlog : 53 ≤ Int.log 2 q := by
    rw [← Int.zpow_le_iff_le_log (by norm_num) hq]
    exact_mod_cast h
  have hu : ulpExponent q = Int.log 2 q - 52 := by unfold ulpExponent; omega
  have hle := Int.zpow_log_le_self (b := 2) (by norm_num) hq
  have hupos := two_zpow_pos (ulpExponent q)
  unfold roundFloat64
  rw [if_neg (ne_of_gt hq), if_pos hq]
  have hsplit : (2 : ℚ) ^ Int.log 2 q = ((2 ^ 52 : ℤ) : ℚ) * 2 ^ ulpExponent q := by
    rw [hu, zpow_sub₀ (by norm_num)]; push_cast; field_simp; ring
  have hx : ((2 ^ 52 : ℤ) : ℚ) ≤ q / 2 ^ ulpExponent q := by
    rw [le_div_iff₀ hupos, ← hsplit]
    exact_mod_cast hle
  have hr := le_roundTiesToEven _ _ hx
  have hr52 : (2 : ℚ) ^ 52 ≤ (roundTiesToEven (q / 2 ^ ulpExponent q) : ℚ) := by
    exact_mod_cast hr
  calc (2 : ℚ) ^ 53 ≤ 2 ^ Int.log 2 q := by
        exact_mod_cast zpow_le_zpow_right₀ (by norm_num : (1 : ℚ) ≤ 2) hlog
    _ = 2 ^ 52 * 2 ^ ulpExponent q := by rw [hsplit]; norm_cast
    _ ≤ (roundTiesToEven (q / 2 ^ ulpExponent q) : ℚ) * 2 ^ ulpExponent q :=
        mul_le_mul_of_nonneg_right hr52 (le_of_lt hupos)

/-- The conversion of a `uint64` does not fall below a smaller value that is
itself below 2^53. -/
theorem le_float64OfUint64 (a t : ℕ) (ha : a < 2 ^ 53) (h : a ≤ t) :
    (a : ℚ) ≤ float64OfUint64 t := by
  unfold float64OfUint64
  rcases lt_or_le t (2 ^ 53) with ht | ht
  · rw [roundFloat64_natCast t ht]; exact_mod_cast h
  · have h1 : (2 : ℚ) ^ 53 ≤ (t : ℚ) := by exact_mod_cast ht
    have h2 := le_roundFloat64_of_large _ h1
    have h3 : (a : ℚ) < 2 ^ 53 := by exact_mod_cast ha
    linarith

/-- The float64 quotient of line 237 is never negative. -/
theorem usageOfTimes_nonneg (t1 t2 : CPUTimes) : 0 ≤ usageOfTimes t1 t2 := by
  unfold usageOfTimes
  split_ifs
  · exact le_refl _
  · unfold divFloat64 mulFloat64 float64OfUint64
    apply roundFloat64_nonneg
    apply div_nonneg
    · apply roundFloat64_nonneg
      exact mul_nonneg (by norm_num) (roundFloat64_nonneg _ (Nat.cast_nonneg _))
    · exact roundFloat64_nonneg _ (Nat.cast_nonneg _)

/-- The float64 quotient of line 237 is at most 100 when `total` did not wrap
and the product `100 * active` is below 2^53, hence exact. -/
theorem usageOfTimes_le_hundred (t1 t2 : CPUTimes)
    (hsum : activeDelta t1 t2 + idleDelta t1 t2 < 2 ^ 64)
    (hprod : 100 * activeDelta t1 t2 < 2 ^ 53) : usageOfTimes t1 t2 ≤ 100 := by
  have hT : totalDelta t1 t2 = activeDelta t1 t2 + idleDelta t1 t2 := by
    unfold totalDelta addUint64
    exact Nat.mod_eq_of_lt hsum
  unfold usageOfTimes
  generalize activeDelta t1 t2 = a at *
  generalize totalDelta t1 t2 = t at *
  split_ifs with h0
  · norm_num
  · have ha53 : a < 2 ^ 53 := by omega
    have hat : a ≤ t := by omega
    have hfa : float64OfUint64 a = a := roundFloat64_natCast a ha53
    have hmul : mulFloat64 100 (float64OfUint64 a) = ((100 * a : ℕ) : ℚ) := by
      unfold mulFloat64
      rw [hfa]
      have hcast : (100 : ℚ) * (a : ℚ) = ((100 * a : ℕ) : ℚ) := by push_cast; ring
      rw [hcast]
      exact roundFloat64_natCast _ hprod
    have hft := le_float64OfUint64 a t ha53 hat
    have ht1 : (1 : ℚ) ≤ float64OfUint64 t := by
      have h1 := le_float64OfUint64 1 t (by norm_num) (Nat.pos_of_ne_zero h0)
      simpa using h1
    have htpos : (0 : ℚ) < float64OfUint64 t := lt_of_lt_of_le one_pos ht1
    unfold divFloat64
    rw [hmul]
    apply roundFloat64_le_hundred
    · exact div_nonneg (Nat.cast_nonneg _) (le_of_lt htpos)
    · rw [div_le_iff₀ htpos]
      push_cast
      linarith

/-- When no counter decreased between the two samples and the five
increments sum to less than 2^64, `active + idle` does not wrap. -/
theorem deltas_no_wrap_of_monotone (t1 t2 : CPUTimes)
    (hu : t1.user ≤ t2.user) (hn : t1.nice ≤ t2.nice) (hs : t1.system ≤ t2.system)
    (hi : t1.idle ≤ t2.idle) (hw : t1.iowait ≤ t2.iowait)
    (hsum : (t2.user - t1.user) + (t2.nice - t1.nice) + (t2.system - t1.system) +
      (t2.idle - t1.idle) + (t2.iowait - t1.iowait) < 2 ^ 64) :
    activeDelta t1 t2 + idleDelta t1 t2 < 2 ^ 64 := by
  unfold activeDelta idleDelta addUint64 subUint64
  norm_num at hsum ⊢
  omega

/-- The conversion `float64(2^64 - 1)` rounds up to 2^64. -/
theorem float64OfUint64_max : float64OfUint64 18446744073709551615 = 18446744073709551616 := by
  unfold float64OfUint64
  rw [roundFloat64_of_bounds _ 63 (by norm_num) (by norm_num) (by norm_num),
    roundTiesToEven_of_floor _ 9007199254740991 (by norm_num) (by norm_num)]
  norm_num

/-- The value 100 * 2^64 is a float64. -/
theorem roundFloat64_hundred_two_pow : roundFloat64 1844674407370955161600 =
    1844674407370955161600 := by
  rw [roundFloat64_of_bounds _ 70 (by norm_num) (by norm_num) (by norm_num),
    roundTiesToEven_of_floor _ 7036874417766400 (by norm_num) (by norm_num)]
  norm_num

/-- C8, as stated, fails when a counter decreases: with `user` going from
1000 to 999 and `idle` from 5000 to 5002, `active` wraps to 2^64 - 1, which
converts to the float64 2^64, `total` wraps to 1, and the result is
100 * 2^64, far above 100. -/
theorem c8_counterexample_counter_decrease :
    8 ≤ ["cpu", "1000", "0", "0", "5000", "0", "0", "0"].length ∧
      6 ≤ ["cpu", "999", "0", "0", "5002", "0"].length ∧
      getCPUUsage (some ["cpu", "1000", "0", "0", "5000", "0", "0", "0"])
        (some ["cpu", "999", "0", "0", "5002", "0"]) = some (100 * 2 ^ 64) ∧
      ¬ ((100 : ℚ) * 2 ^ 64 ≤ 100) := by
  have hA : activeDelta (parseCPUTimes ["cpu", "1000", "0", "0", "5000", "0", "0", "0"])
      (parseCPUTimes ["cpu", "999", "0", "0", "5002", "0"]) = 18446744073709551615 := by
    decide
  have hT : totalDelta (parseCPUTimes ["cpu", "1000", "0", "0", "5000", "0", "0", "0"])
      (parseCPUTimes ["cpu", "999", "0", "0", "5002", "0"]) = 1 := by
    decide
  have h1 : float64OfUint64 1 = 1 := by
    simpa [float64OfUint64] using roundFloat64_natCast 1 (by norm_num)
  refine ⟨by decide, by decide, ?_, by norm_num⟩
  simp only [getCPUUsage, usageOfTimes, hA, hT, float64OfUint64_max, h1, mulFloat64, divFloat64]
  norm_num [roundFloat64_hundred_two_pow]

/-- Without the bound on `100 * active` the result can exceed 100 although
no counter decreased and nothing wrapped: with `user` going from 0 to
2^53 - 16 and every other counter still, the product rounds up and the result
is 100 + 2^-46, the float64 next above 100. -/
theorem usage_above_hundred_by_rounding :
    getCPUUsage (some ["cpu", "0", "0", "0", "0", "0", "0", "0"])
        (some ["cpu", "9007199254740976", "0", "0", "0", "0"]) =
      some (100 + 1 / 2 ^ 46) := by
  have hA : activeDelta (parseCPUTimes ["cpu", "0", "0", "0", "0", "0", "0", "0"])
      (parseCPUTimes ["cpu", "9007199254740976", "0", "0", "0", "0"]) = 9007199254740976 := by
    decide
  have hT : totalDelta (parseCPUTimes ["cpu", "0", "0", "0", "0", "0", "0", "0"])
      (parseCPUTimes ["cpu", "9007199254740976", "0", "0", "0", "0"]) = 9007199254740976 := by
    decide
  have hf : float64OfUint64 9007199254740976 = 9007199254740976 := by
    simpa [float64OfUint64] using roundFloat64_natCast 9007199254740976 (by norm_num)
  have hm : roundFloat64 900719925474097600 = 900719925474097664 := by
    rw [roundFloat64_of_bounds _ 59 (by norm_num) (by norm_num) (by norm_num),
      roundTiesToEven_of_floor _ 7036874417766387 (by norm_num) (by norm_num)]
    norm_num
  have hd : roundFloat64 (900719925474097664 / 9007199254740976) = 100 + 1 / 2 ^ 46 := by
    rw [roundFloat64_of_bounds _ 6 (by norm_num) (by norm_num) (by norm_num),
      roundTiesToEven_of_floor _ 7036874417766400 (by norm_num) (by norm_num)]
    norm_num
  have hp : (100 : ℚ) * 9007199254740976 = 900719925474097600 := by norm_num
  have hu : usageOfTimes (parseCPUTimes ["cpu", "0", "0", "0", "0", "0", "0", "0"])
      (parseCPUTimes ["cpu", "9007199254740976", "0", "0", "0", "0"]) = 100 + 1 / 2 ^ 46 := by
    unfold usageOfTimes
    rw [hT, hA, if_neg (by norm_num), hf]
    unfold divFloat64 mulFloat64
    rw [hp, hm, hd]
  simp [getCPUUsage, hu]

/-- An everyday input: 40 ticks of user, 10 of system and 150 of idle time
between the samples give exactly 25. -/
theorem usage_quarter :
    getCPUUsage (some ["cpu", "1000", "0", "200", "5000", "30", "0", "0"])
        (some ["cpu", "1040", "0", "210", "5150", "30", "0", "0"]) = some 25 := by
  have hA : activeDelta (parseCPUTimes ["cpu", "1000", "0", "200", "5000", "30", "0", "0"])
      (parseCPUTimes ["cpu", "1040", "0", "210", "5150", "30", "0", "0"]) = 50 := by
    decide
  have hT : totalDelta (parseCPUTimes ["cpu", "1000", "0", "200", "5000", "30", "0", "0"])
      (parseCPUTimes ["cpu", "1040", "0", "210", "5150", "30", "0", "0"]) = 200 := by
    decide
  have hfa : float64OfUint64 50 = 50 := by
    simpa [float64OfUint64] using roundFloat64_natCast 50 (by norm_num)
  have hft : float64OfUint64 200 = 200 := by
    simpa [float64OfUint64] using roundFloat64_natCast 200 (by norm_num)
  have hp : (100 : ℚ) * 50 = 5000 := by norm_num
  have hm : roundFloat64 5000 = 5000 := by
    simpa using roundFloat64_natCast 5000 (by norm_num)
  have hq : (5000 : ℚ) / 200 = 25 := by norm_num
  have hd : roundFloat64 25 = 25 := by
    simpa using roundFloat64_natCast 25 (by norm_num)
  have hu : usageOfTimes (parseCPUTimes ["cpu", "1000", "0", "200", "5000", "30", "0", "0"])
      (parseCPUTimes ["cpu", "1040", "0", "210", "5150", "30", "0", "0"]) = 25 := by
    unfold usageOfTimes
    rw [hT, hA, if_neg (by norm_num), hfa, hft]
    unfold divFloat64 mulFloat64
    rw [hp, hm, hq, hd]
  simp [getCPUUsage, hu]

/-- A quotient that is no float64: one tick of user and two of idle time give
the float64 nearest to 100/3, which is 4691249611844267 / 2^47
(33.333333333333336). -/
theorem usage_one_third :
    getCPUUsage (some ["cpu", "1000", "0", "0", "5000", "0", "0", "0"])
        (some ["cpu", "1001", "0", "0", "5002", "0"]) =
      some (4691249611844267 / 2 ^ 47) := by
  have hA : activeDelta (parseCPUTimes ["cpu", "1000", "0", "0", "5000", "0", "0", "0"])
      (parseCPUTimes ["cpu", "1001", "0", "0", "5002", "0"]) = 1 := by
    decide
  have hT : totalDelta (parseCPUTimes ["cpu", "1000", "0", "0", "5000", "0", "0", "0"])
      (parseCPUTimes ["cpu", "1001", "0", "0", "5002", "0"]) = 3 := by
    decide
  have hfa : float64OfUint64 1 = 1 := by
    simpa [float64OfUint64] using roundFloat64_natCast 1 (by norm_num)
  have hft : float64OfUint64 3 = 3 := by
    simpa [float64OfUint64] using roundFloat64_natCast 3 (by norm_num)
  have hp : (100 : ℚ) * 1 = 100 := by norm_num
  have hm : roundFloat64 100 = 100 := by
    simpa using roundFloat64_natCast 100 (by norm_num)
  have hd : roundFloat64 (100 / 3) = 4691249611844267 / 2 ^ 47 := by
    rw [roundFloat64_of_bounds _ 5 (by norm_num) (by norm_num) (by norm_num),
      roundTiesToEven_of_floor _ 4691249611844266 (by norm_num) (by norm_num)]
    norm_num
  have hu : usageOfTimes (parseCPUTimes ["cpu", "1000", "0", "0", "5000", "0", "0", "0"])
      (parseCPUTimes ["cpu", "1001", "0", "0", "5002", "0"]) = 4691249611844267 / 2 ^ 47 := by
    unfold usageOfTimes
    rw [hT, hA, if_neg (by norm_num), hfa, hft]
    unfold divFloat64 mulFloat64
    rw [hp, hm, hd]
  simp [getCPUUsage, hu]

/-- C8 (amended): for every pair of successfully read `cpu` lines, the first
with at least 8 fields and the second with at least 6, `getCPUUsage` returns a
float64 that is at least 0; it is at most 100 whenever the wrapped deltas
satisfy `active + idle < 2^64`, so that `total` did not wrap, and
`100 * active < 2^53`, so that the product is exact in float64. -/
theorem c8_usage_range (fields1 fields2 : List String)
    (h1 : 8 ≤ fields1.length) (h2 : 6 ≤ fields2.length) :
    ∃ r : ℚ, getCPUUsage (some fields1) (some fields2) = some r ∧ 0 ≤ r ∧
      (activeDelta (parseCPUTimes fields1) (parseCPUTimes fields2) +
          idleDelta (parseCPUTimes fields1) (parseCPUTimes fields2) < 2 ^ 64 →
        100 * activeDelta (parseCPUTimes fields1) (parseCPUTimes fields2) < 2 ^ 53 →
        r ≤ 100) := by
  refine ⟨usageOfTimes (parseCPUTimes fields1) (parseCPUTimes fields2), ?_,
    usageOfTimes_nonneg _ _, usageOfTimes_le_hundred _ _⟩
  simp [getCPUUsage, Nat.not_lt.mpr h1, Nat.not_lt.mpr h2]

/-- C8 (amended) at a concrete input: 40 ticks of user, 10 of system and 150
of idle time between the samples; `active` is 50, `total` is 200, both
conditions of the bound hold and the result is 25. -/
theorem c8_usage_range_witness :
    (∃ r : ℚ, getCPUUsage (some ["cpu", "1000", "0", "200", "5000", "30", "0", "0"])
        (some ["cpu", "1040", "0", "210", "5150", "30", "0", "0"]) = some r ∧ 0 ≤ r ∧
      (activeDelta (parseCPUTimes ["cpu", "1000", "0", "200", "5000", "30", "0", "0"])
            (parseCPUTimes ["cpu", "1040", "0", "210", "5150", "30", "0", "0"]) +
          idleDelta (parseCPUTimes ["cpu", "1000", "0", "200", "5000", "30", "0", "0"])
            (parseCPUTimes ["cpu", "1040", "0", "210", "5150", "30", "0", "0"]) < 2 ^ 64 →
        100 * activeDelta (parseCPUTimes ["cpu", "1000", "0", "200", "5000", "30", "0", "0"])
            (parseCPUTimes ["cpu", "1040", "0", "210", "5150", "30", "0", "0"]) < 2 ^ 53 →
        r ≤ 100)) ∧
      activeDelta (parseCPUTimes ["cpu", "1000", "0", "200", "5000", "30", "0", "0"])
        (parseCPUTimes ["cpu", "1040", "0", "210", "5150", "30", "0", "0"]) = 50 ∧
      idleDelta (parseCPUTimes ["cpu", "1000", "0", "200", "5000", "30", "0", "0"])
        (parseCPUTimes ["cpu", "1040", "0", "210", "5150", "30", "0", "0"]) = 150 ∧
      totalDelta (parseCPUTimes ["cpu", "1000", "0", "200", "5000", "30", "0", "0"])
        (parseCPUTimes ["cpu", "1040", "0", "210", "5150", "30", "0", "0"]) = 200 ∧
      getCPUUsage (some ["cpu", "1000", "0", "200", "5000", "30", "0", "0"])
        (some ["cpu", "1040", "0", "210", "5150", "30", "0", "0"]) = some 25 :=
  ⟨c8_usage_range ["cpu", "1000", "0", "200", "5000", "30", "0", "0"]
      ["cpu", "1040", "0", "210", "5150", "30", "0", "0"] (by decide) (by decide),
    by decide, by decide, by decide, usage_quarter⟩

/-! ## C9: the value of `getCPUCount` -/

theorem foldl_count_eq (files : List String) :
    ∀ n : Nat, files.foldl (fun count name => if isCPUEntry name then count + 1 else count) n =
      n + (files.filter isCPUEntry).length := by
  induction files with
  | nil => intro n; simp
  | cons f rest ih =>
    intro n
    by_cases h : isCPUEntry f = true
    · simp [List.foldl_cons, ih, h]; omega
    · simp [List.foldl_cons, ih, h]

/-- C9, as stated, fails on a listing that was read successfully but holds no
`cpuN` entry: the result is 0, not at least 1. -/
theorem c9_counterexample_no_cpu_entry :
    getCPUCount (some ["cpufreq", "cpuidle", "online", "possible"]) = 0 ∧
      ¬ (1 ≤ getCPUCount (some ["cpufreq", "cpuidle", "online", "possible"])) := by
  decide

/-- C9 (amended): `getCPUCount` returns 1 when the enumeration fails; for
every successfully read list of entry names it returns the number of names
that start with "cpu" and contain neither "cpuidle" nor "cpufreq", which is at
least 1 exactly when some name of the list is such a name. -/
theorem c9_cpu_count (files : List String) :
    getCPUCount none = 1 ∧
      getCPUCount (some files) =
        (files.filter (fun name => hasPrefix name "cpu" && !containsSubstr name "cpuidle" &&
          !containsSubstr name "cpufreq")).length ∧
      (1 ≤ getCPUCount (some files) ↔
        ∃ name ∈ files, hasPrefix name "cpu" = true ∧ containsSubstr name "cpuidle" = false ∧
          containsSubstr name "cpufreq" = false) := by
  have hcount : getCPUCount (some files) = (files.filter isCPUEntry).length := by
    simp [getCPUCount, foldl_count_eq]
  refine ⟨rfl, hcount, ?_⟩
  rw [hcount, Nat.succ_le_iff, List.length_pos_iff_exists_mem]
  constructor
  · rintro ⟨name, hmem⟩
    rw [List.mem_filter] at hmem
    refine ⟨name, hmem.1, ?_⟩
    simpa [isCPUEntry, Bool.and_eq_true, and_assoc] using hmem.2
  · rintro ⟨name, hmem, hp, h1, h2⟩
    exact ⟨name, List.mem_filter.mpr ⟨hmem, by simp [isCPUEntry, hp, h1, h2]⟩⟩

/-- C9 (amended) on the listing of a machine with two cores. -/
theorem c9_cpu_count_witness :
    getCPUCount (some ["cpu0", "cpu1", "cpufreq", "cpuidle", "online", "possible"]) = 2 ∧
      getCPUCount none = 1 ∧
      getCPUCount (some ["cpu0", "cpu1", "cpufreq", "cpuidle", "online", "possible"]) =
        (["cpu0", "cpu1", "cpufreq", "cpuidle", "online", "possible"].filter
          (fun name => hasPrefix name "cpu" && !containsSubstr name "cpuidle" &&
            !containsSubstr name "cpufreq")).length ∧
      (1 ≤ getCPUCount (some ["cpu0", "cpu1", "cpufreq", "cpuidle", "online", "possible"]) ↔
        ∃ name ∈ ["cpu0", "cpu1", "cpufreq", "cpuidle", "online", "possible"],
          hasPrefix name "cpu" = true ∧ containsSubstr name "cpuidle" = false ∧
            containsSubstr name "cpufreq" = false) :=
  ⟨by decide, c9_cpu_count ["cpu0", "cpu1", "cpufreq", "cpuidle", "online", "possible"]⟩

end CpuTurbo
